import Mathlib

/-!
# hacker-league server: session registry, input regulator and match clock

A shallow embedding of `src/server.cpp`.

* Floats are only ever copied (`memcpy`), never computed with, so a `float` is its raw
  32-bit pattern (a `Nat`).
* `Option` results: `none` stands for an execution the C++ abstract machine gives no
  meaning to (`front`/`pop` on an empty queue, an out-of-range `players[...]`, signed
  overflow) or, in `receiveOne`, for the thrown `runtime_error`.
* The receive thread and the simulation loop are modelled as an interleaving of whole
  datagram handlings and whole phases of a tick.
-/

namespace HackerLeague

/-! ## Data model -/

/-- An `Eigen::Vector3f`: three floats, kept as raw 32-bit patterns. -/
structure Vector3 where
  x : Nat
  y : Nat
  z : Nat
  deriving DecidableEq, Repr

/-- Modelled from the spec: `common.h` is missing; the type behind `carState` and
`objectState` has `position`, `velocity` and `orientation` (spec §3). -/
structure ObjectState where
  position : Vector3
  velocity : Vector3
  orientation : Vector3
  deriving DecidableEq, Repr

/-- Modelled from the spec: `common.h` is missing; the type behind `action` has the two
floats `steering` and `throttle` (spec §3). -/
structure Action where
  steering : Nat
  throttle : Nat
  deriving DecidableEq, Repr

/-- Modelled from the spec: `common.h` is missing; `Player` is
`{carState, action, score: uint8}` (spec §3). -/
structure Player where
  carState : ObjectState
  action : Action
  score : Nat
  deriving DecidableEq, Repr

/-- Modelled from the spec: `common.h` is missing; the ball is a `Sphere` whose
`objectState` is read by the broadcast (spec §3). -/
structure Sphere where
  objectState : ObjectState
  deriving DecidableEq, Repr

/-- Modelled from the spec: `common.h` is missing; `players` is a vector that holds
exactly two `Player`s, indexed 0 and 1 (spec §3). -/
structure Players where
  p0 : Player
  p1 : Player
  deriving DecidableEq, Repr

/-- Source `struct Input`. -/
structure Input where
  id : Nat
  player : Player
  deriving DecidableEq, Repr

/-- The two fields of `sockaddr_in` that the server compares. -/
structure SockAddr where
  s_addr : Nat
  sin_port : Nat
  deriving DecidableEq, Repr

/-- Source `struct Client`. `lastUpdate` is a `steady_clock` reading in clock ticks
(nanoseconds). -/
structure Client where
  address : SockAddr
  queue : List Input
  regulateQueue : Bool
  playerId : Nat
  lastUpdate : Int
  deriving DecidableEq, Repr

/-- The variables of `main` that live across iterations of the loop, and `clients`. -/
structure Server where
  clients : List Client
  ball : Sphere
  players : Players
  startTime : Int
  transitionTime : Int
  deriving DecidableEq, Repr

/-- What `common.h` and the physics library supply to `main`: the initial ball, the
initial players and `physicsStep` (with its constant arguments applied), which updates
the ball and the players. -/
structure Env where
  initialBall : Sphere
  initialPlayers : Players
  physicsStep : Sphere → Players → Sphere × Players

/-- An entry of `clientPlayerInputIds`. The source keeps a pointer to the client's
address; the model keeps the address. -/
structure Record where
  address : SockAddr
  playerId : Nat
  inputId : Nat
  deriving DecidableEq, Repr

/-- The fields written into the 102-byte buffer of the broadcast, with their
destination. -/
structure Packet where
  dest : SockAddr
  inputId : Nat
  opponentCarState : ObjectState
  opponentAction : Action
  ball : ObjectState
  countdown : Int
  transitionCountdown : Int
  score0 : Nat
  score1 : Nat
  deriving DecidableEq, Repr

/-- The one-byte reply of an admission: destination and `playerId`. -/
structure Reply where
  dest : SockAddr
  playerId : Nat
  deriving DecidableEq, Repr

/-! ## Constants -/

/-- Line 119 (`uint16_t`, converted to `int64_t` where it is used). -/
def GAME_DURATION : Int := 300

/-- Line 120 (`uint16_t`, converted to `int64_t` where it is used). -/
def TRANSITION_DURATION : Int := 5

/-- Line 121. -/
def QUEUE_MIN : Nat := 1

/-- Line 122. -/
def QUEUE_MAX : Nat := 10

/-- Line 123: integer division, so 5. -/
def QUEUE_TARGET : Nat := (QUEUE_MIN + QUEUE_MAX) / 2

/-- Largest value of the loop counter `int i`. -/
def INT_MAX : Nat := 2147483647

/-- Number of `steady_clock` ticks in a second (`std::nano`). -/
def STEADY_TICKS_PER_SECOND : Int := 1000000000

/-! ## Machine arithmetic -/

/-- The value is representable in an `int64_t`. -/
def InI64 (x : Int) : Prop := -9223372036854775808 ≤ x ∧ x ≤ 9223372036854775807

instance (x : Int) : Decidable (InI64 x) := by
  unfold InI64
  infer_instance

/-- Result of an `int64_t` operation: the value when it is representable, `none`
(signed overflow) otherwise. -/
def i64 (x : Int) : Option Int :=
  if -9223372036854775808 ≤ x ∧ x ≤ 9223372036854775807 then some x else none

/-- Subtraction of `size_t` values (wraps modulo 2^64). -/
def subSizeT (a b : Nat) : Nat :=
  (a + (18446744073709551616 - b % 18446744073709551616)) % 18446744073709551616

/-! ## The receive thread -/

/-- Read a 32-bit value from the receive buffer (bytes, least significant first). -/
def load32 (buffer : Nat → Nat) (off : Nat) : Nat :=
  buffer off % 256 + 256 * (buffer (off + 1) % 256) + 65536 * (buffer (off + 2) % 256)
    + 16777216 * (buffer (off + 3) % 256)

/-- Read three consecutive floats (12 bytes) from the receive buffer. -/
def loadVector3 (buffer : Nat → Nat) (off : Nat) : Vector3 :=
  { x := load32 buffer off, y := load32 buffer (off + 4), z := load32 buffer (off + 8) }

/-- Lines 70-76: `Input input;` followed by the `memcpy`s. `fresh` is the
default-initialised `Input`. -/
def decodeInput (fresh : Input) (buffer : Nat → Nat) : Input :=
  { id := load32 buffer 0,
    player :=
      { carState :=
          { position := loadVector3 buffer 4,
            velocity := loadVector3 buffer 16,
            orientation := loadVector3 buffer 28 },
        action := { steering := load32 buffer 40, throttle := load32 buffer 44 },
        score := fresh.player.score } }

/-- The test of line 47. -/
def sameEndpoint (c : Client) (clientAddress : SockAddr) : Bool :=
  c.address.s_addr == clientAddress.s_addr && c.address.sin_port == clientAddress.sin_port

/-- Lines 44-52: position of the first client with the datagram's endpoint. -/
def findClient (clientAddress : SockAddr) : List Client → Option Nat
  | [] => none
  | c :: cs =>
    if sameEndpoint c clientAddress then some 0
    else (findClient clientAddress cs).map (· + 1)

/-- Apply `f` to the client at position `i`. -/
def updateClient (f : Client → Client) : Nat → List Client → List Client
  | _, [] => []
  | 0, c :: cs => f c :: cs
  | i + 1, c :: cs => c :: updateClient f i cs

/-- Line 58: `clients.size() == 0 ? 0 : clients[0].playerId ^ 1`, stored in a
`uint8_t`. -/
def newPlayerId : List Client → Nat
  | [] => 0
  | c :: _ => (c.playerId ^^^ 1) % 256

/-- One iteration of the loop of `receive`, for a datagram of `recvLength` bytes left
in `buffer`, from `clientAddress`, with `now` the `steady_clock` reading. `none` is the
thrown `runtime_error`. -/
def receiveOne (fresh : Input) (recvLength : Int) (buffer : Nat → Nat)
    (clientAddress : SockAddr) (now : Int) (clients : List Client) :
    Option (List Client × Option Reply) :=
  if recvLength = 0 then none
  else
    match findClient clientAddress clients with
    | none =>
      if clients.length < 2 then
        let playerId := newPlayerId clients
        some (clients ++ [{ address := clientAddress, queue := [], regulateQueue := true,
                            playerId := playerId, lastUpdate := now }],
              some { dest := clientAddress, playerId := playerId })
      else some (clients, none)
    | some i =>
      some (updateClient
              (fun c => { c with queue := c.queue ++ [decodeInput fresh buffer],
                                 lastUpdate := now }) i clients,
            none)

/-- Line 61: the reply is the one byte of `playerId`. -/
def encodeReply (r : Reply) : List Nat := [r.playerId % 256]

/-! ## The simulation loop -/

/-- Lines 135-149: the round reset, or the reset of `startTime`. -/
def clockCheck (env : Env) (currentTime : Int) (s : Server) : Option Server :=
  if s.clients.length = 2 then do
    let elapsed ← i64 (currentTime - s.startTime)
    if elapsed > GAME_DURATION then do
      let start ← i64 (currentTime + 5)
      pure { s with startTime := start, transitionTime := currentTime,
                    ball := env.initialBall,
                    players := { p0 := { s.players.p0 with score := 0 },
                                 p1 := { s.players.p1 with score := 0 } } }
    else pure s
  else pure { s with startTime := 0 }

/-- The predicate of lines 152-155, with `now` the `steady_clock` reading taken by
this call: the two readings are `int64_t` counts of nanoseconds, their difference is an
`int64_t` subtraction (`none` on signed overflow), and `duration_cast<seconds>`
truncates it towards zero. -/
def stale (now : Int) (client : Client) : Option Bool := do
  let elapsed ← i64 (now - client.lastUpdate)
  pure (decide (Int.tdiv elapsed STEADY_TICKS_PER_SECOND > 5))

/-- Lines 151-156: `erase(remove_if(...))`. The predicate is called once per client, in
order, and reads the clock each time; `clock i` is the reading of the call on the client
at position `i`. -/
def reapFrom (clock : Nat → Int) : Nat → List Client → Option (List Client)
  | _, [] => some []
  | i, c :: cs => do
    let remove ← stale (clock i) c
    let rest ← reapFrom clock (i + 1) cs
    pure (if remove then rest else c :: rest)

/-- The reap of one tick, the first clock reading being `clock 0`. -/
def reap (clock : Nat → Int) (clients : List Client) : Option (List Client) :=
  reapFrom clock 0 clients

/-- Lines 161-168: the update of `regulateQueue` for a queue of `size` elements. -/
def updateFlag (regulateQueue : Bool) (size : Nat) : Bool :=
  if size < QUEUE_MIN ∨ size > QUEUE_MAX then true
  else if size = (QUEUE_MIN + QUEUE_MAX) / 2 then false
  else regulateQueue

/-- The condition of line 169, on the updated flag. -/
def consumes (regulateQueue : Bool) (size : Nat) : Bool :=
  !regulateQueue || decide (size > QUEUE_MAX)

/-- The bound of the loop of line 175, a `size_t`. -/
def loopBound (regulateQueue : Bool) (size : Nat) : Nat :=
  if regulateQueue then subSizeT size QUEUE_TARGET else 1

/-- Lines 175-176: the loop `for (int i = 0; i < bound; i++) queue.pop();` from the
value `i` of the counter on; the bound is evaluated again before every iteration. -/
def drain (regulateQueue : Bool) : Nat → List Input → Option (List Input)
  | i, [] => if i < loopBound regulateQueue 0 then none else some []
  | i, x :: q =>
    if i < loopBound regulateQueue (q.length + 1) then
      if i + 1 ≤ INT_MAX then drain regulateQueue (i + 1) q else none
    else some (x :: q)

/-- How an execution of the loop of lines 175-176 ends: with the remaining queue, with a
`pop` on an empty queue, or with an overflow of the counter `int i`. -/
inductive DrainOutcome where
  | done (queue : List Input)
  | popEmpty
  | counterOverflow
  deriving DecidableEq, Repr

/-- The loop of lines 175-176 as in `drain`, telling the two executions without a
result apart. -/
def drainChecked (regulateQueue : Bool) : Nat → List Input → DrainOutcome
  | i, [] => if i < loopBound regulateQueue 0 then .popEmpty else .done []
  | i, x :: q =>
    if i < loopBound regulateQueue (q.length + 1) then
      if i + 1 ≤ INT_MAX then drainChecked regulateQueue (i + 1) q else .counterOverflow
    else .done (x :: q)

/-- The remaining queue, if the loop has a result. -/
def DrainOutcome.toOption : DrainOutcome → Option (List Input)
  | .done queue => some queue
  | .popEmpty => none
  | .counterOverflow => none

/-- Read `players[playerId]`. -/
def getPlayer (players : Players) (playerId : Nat) : Option Player :=
  if playerId = 0 then some players.p0
  else if playerId = 1 then some players.p1
  else none

/-- Lines 172-173: store the input's action and car state in `players[playerId]`. -/
def applyInput (players : Players) (playerId : Nat) (input : Input) : Option Players :=
  if playerId = 0 then
    some { players with p0 := { players.p0 with action := input.player.action,
                                                carState := input.player.carState } }
  else if playerId = 1 then
    some { players with p1 := { players.p1 with action := input.player.action,
                                                carState := input.player.carState } }
  else none

/-- Lines 161-177: the body of the regulator loop for one client. -/
def regulateClient (players : Players) (c : Client) :
    Option (Client × Players × Option Record) :=
  let regulateQueue := updateFlag c.regulateQueue c.queue.length
  if consumes regulateQueue c.queue.length then
    match c.queue with
    | [] => none
    | input :: _ => do
      let players' ← applyInput players c.playerId input
      let queue ← drain regulateQueue 0 c.queue
      pure ({ c with regulateQueue := regulateQueue, queue := queue }, players',
            some { address := c.address, playerId := c.playerId, inputId := input.id })
  else some ({ c with regulateQueue := regulateQueue }, players, none)

/-- Lines 158-178: the regulator loop over all clients, in order. -/
def regulate (players : Players) : List Client → Option (List Client × Players × List Record)
  | [] => some ([], players, [])
  | c :: cs => do
    let (c', players', r) ← regulateClient players c
    let (cs', players'', rs) ← regulate players' cs
    pure (c' :: cs', players'', r.toList ++ rs)

/-- Lines 182-203: the packet for one entry of `clientPlayerInputIds`. -/
def statePacket (currentTime : Int) (s : Server) (r : Record) : Option Packet := do
  let otherPlayer := r.playerId ^^^ 1
  let c0 ← i64 (GAME_DURATION - currentTime)
  let countdown ← i64 (c0 + s.startTime)
  let t0 ← i64 (TRANSITION_DURATION - currentTime)
  let transitionCountdown ← i64 (t0 + s.transitionTime)
  let transitionCountdown := if transitionCountdown < 0 then 0 else transitionCountdown
  let countdown := if countdown < 0 then 0 else countdown
  let other ← getPlayer s.players otherPlayer
  pure { dest := r.address, inputId := r.inputId,
         opponentCarState := other.carState, opponentAction := other.action,
         ball := s.ball.objectState,
         countdown := countdown, transitionCountdown := transitionCountdown,
         score0 := s.players.p0.score, score1 := s.players.p1.score }

/-- Lines 180-204: one packet per entry, in order. -/
def broadcast (currentTime : Int) (s : Server) : List Record → Option (List Packet)
  | [] => some []
  | r :: rs => do
    let p ← statePacket currentTime s r
    let ps ← broadcast currentTime s rs
    pure (p :: ps)

/-- The four bytes of a 32-bit value, least significant first. -/
def store32 (n : Nat) : List Nat :=
  [n % 256, n / 256 % 256, n / 65536 % 256, n / 16777216 % 256]

/-- The twelve bytes of three consecutive floats. -/
def storeVector3 (v : Vector3) : List Nat := store32 v.x ++ store32 v.y ++ store32 v.z

/-- The eight bytes of an `int64_t` (two's complement), least significant first. -/
def store64 (x : Int) : List Nat :=
  store32 (x % 18446744073709551616).toNat
    ++ store32 ((x % 18446744073709551616).toNat / 4294967296)

/-- Lines 189-202: the bytes of `buffer` as sent, in the order of their offsets. -/
def encodeState (p : Packet) : List Nat :=
  store32 p.inputId
    ++ storeVector3 p.opponentCarState.position
    ++ storeVector3 p.opponentCarState.velocity
    ++ storeVector3 p.opponentCarState.orientation
    ++ store32 p.opponentAction.steering
    ++ store32 p.opponentAction.throttle
    ++ storeVector3 p.ball.position
    ++ storeVector3 p.ball.velocity
    ++ storeVector3 p.ball.orientation
    ++ store64 p.countdown
    ++ store64 p.transitionCountdown
    ++ [p.score0 % 256]
    ++ [p.score1 % 256]

/-- Lines 169-174: the entry that the regulator appends to `clientPlayerInputIds` for a
client, if any. -/
def frontRecord (c : Client) : Option Record :=
  if consumes (updateFlag c.regulateQueue c.queue.length) c.queue.length then
    c.queue.head?.map
      (fun input => { address := c.address, playerId := c.playerId, inputId := input.id })
  else none

/-- Lines 206-212: the physics step and the score event. -/
def scorePhase (env : Env) (currentTime : Int) (s : Server) : Option Server :=
  let scores0 := s.players.p0.score
  let scores1 := s.players.p1.score
  let (ball, players) := env.physicsStep s.ball s.players
  if players.p0.score ≠ scores0 ∨ players.p1.score ≠ scores1 then do
    let start ← i64 (s.startTime + 5)
    pure { s with ball := ball, players := players, transitionTime := currentTime,
                  startTime := start }
  else pure { s with ball := ball, players := players }

/-- Lines 158-178 on the server state. -/
def regulatePhase (s : Server) : Option (Server × List Record) := do
  let (clients, players, records) ← regulate s.players s.clients
  pure ({ s with clients := clients, players := players }, records)

/-- One iteration of the loop of `main` (lines 133-212), with `currentTime` the
wall-clock reading in seconds and `clock` the `steady_clock` readings of the reap. -/
def tick (env : Env) (currentTime : Int) (clock : Nat → Int) (s : Server) :
    Option (Server × List Packet) := do
  let s1 ← clockCheck env currentTime s
  let clients ← reap clock s1.clients
  let (s3, records) ← regulatePhase { s1 with clients := clients }
  let packets ← broadcast currentTime s3 records
  let s4 ← scorePhase env currentTime s3
  pure (s4, packets)

/-- Line 110 and lines 113-126: the state on entry to the loop. -/
def initialServer (env : Env) : Server :=
  { clients := [], ball := env.initialBall, players := env.initialPlayers,
    startTime := 0, transitionTime := 0 }

/-! ## Interleavings -/

/-- The steps that act on the registry: the handling of one datagram by `receive`, the
reap of a tick (lines 151-156) and the regulator loop of a tick (lines 158-178), which
runs on the current `players`. -/
inductive RegistryEvent where
  | datagram (fresh : Input) (recvLength : Int) (buffer : Nat → Nat)
      (clientAddress : SockAddr) (now : Int)
  | reaping (clock : Nat → Int)
  | regulating (players : Players)

/-- The registry after one step; `none` when the step has no result. -/
def registryStep : RegistryEvent → List Client → Option (List Client)
  | .datagram fresh recvLength buffer clientAddress now, clients =>
    (receiveOne fresh recvLength buffer clientAddress now clients).map (fun r => r.1)
  | .reaping clock, clients => reap clock clients
  | .regulating players, clients => (regulate players clients).map (fun r => r.1)

/-- The registry after a sequence of steps, in order. -/
def registryRun : List RegistryEvent → List Client → Option (List Client)
  | [], clients => some clients
  | e :: es, clients => (registryStep e clients).bind (registryRun es)

/-- The registry invariant on the list of player ids, in registry order: at most two
sessions, ids 0 or 1, and two sessions have different ids. -/
def RegistryInv (clients : List Client) : Prop :=
  clients.map (fun c => c.playerId) ∈ [[], [0], [1], [0, 1], [1, 0]]

/-- The steps of the server: the handling of one datagram by the receive thread, and
one iteration of the loop of `main`. -/
inductive Event where
  | datagram (fresh : Input) (recvLength : Int) (buffer : Nat → Nat)
      (clientAddress : SockAddr) (now : Int)
  | tick (currentTime : Int) (clock : Nat → Int)

/-- The server after one step; `none` when the step has no result. -/
def step (env : Env) : Event → Server → Option Server
  | .datagram fresh recvLength buffer clientAddress now, s =>
    (receiveOne fresh recvLength buffer clientAddress now s.clients).map
      (fun r => { s with clients := r.1 })
  | .tick currentTime clock, s => (tick env currentTime clock s).map (fun r => r.1)

/-- The server after a sequence of steps, in order. -/
def run (env : Env) : List Event → Server → Option Server
  | [], s => some s
  | e :: es, s => (step env e s).bind (run env es)

/-- The step is an iteration of the loop of `main`. -/
def isTick : Event → Bool
  | .tick _ _ => true
  | .datagram _ _ _ _ _ => false

/-- Every tick of the run from `s` starts, at its clock check, with fewer than two
sessions. -/
def idleTicks (env : Env) : List Event → Server → Bool
  | [], _ => true
  | e :: es, s =>
    (!isTick e || decide (s.clients.length < 2)) &&
      (match step env e s with
       | some s' => idleTicks env es s'
       | none => true)

/-- The scores of player 0 and player 1. -/
def scoresOf (s : Server) : Nat × Nat := (s.players.p0.score, s.players.p1.score)

/-- The steps that act on one session: lines 77-78 of `receive` (one more input, and
`lastUpdate`), and the body of the regulator loop of a tick (lines 161-177). -/
inductive SessionEvent where
  | ingest (input : Input) (now : Int)
  | regulatorTick (players : Players)

/-- The session after one step; `none` when the step has no result. -/
def sessionStep : SessionEvent → Client → Option Client
  | .ingest input now, c => some { c with queue := c.queue ++ [input], lastUpdate := now }
  | .regulatorTick players, c => (regulateClient players c).map (fun r => r.1)

/-- The session after a sequence of steps, in order. -/
def sessionRun : List SessionEvent → Client → Option Client
  | [], c => some c
  | e :: es, c => (sessionStep e c).bind (sessionRun es)

/-- The depth exceeds `QUEUE_MAX`, or the session regulates with a depth above the
target. -/
def LockedIn (c : Client) : Prop :=
  c.queue.length > 10 ∨ (c.regulateQueue = true ∧ c.queue.length > 5)

/-! ## Successive ticks -/

/-- The values of `regulateQueue` of one session before and after successive ticks
whose queue depths are `depths`: the flag before the first tick, then the flag after
each update of lines 161-168. -/
def flagsAlong (regulateQueue : Bool) : List Nat → List Bool
  | [] => [regulateQueue]
  | d :: ds => regulateQueue :: flagsAlong (updateFlag regulateQueue d) ds

/-! ## Concrete inputs used by the examples -/

/-- An input with sequence number `n`, whose other fields are derived from `n`. -/
def exampleInput (n : Nat) : Input :=
  { id := n,
    player := { carState := { position := ⟨n, n + 1, n + 2⟩, velocity := ⟨0, 0, 0⟩,
                              orientation := ⟨0, 0, 1⟩ },
                action := { steering := n, throttle := 2 * n }, score := 0 } }

/-- The inputs `0, 1, ..., n - 1` in arrival order. -/
def exampleQueue (n : Nat) : List Input := (List.range n).map exampleInput

/-- A player at rest with the given score. -/
def examplePlayer (score : Nat) : Player :=
  { carState := { position := ⟨0, 0, 0⟩, velocity := ⟨0, 0, 0⟩, orientation := ⟨0, 0, 0⟩ },
    action := { steering := 0, throttle := 0 }, score := score }

/-- Two players with scores 3 and 1. -/
def examplePlayers : Players := { p0 := examplePlayer 3, p1 := examplePlayer 1 }

/-- A session of player `playerId` at port `port`, with `depth` queued inputs. -/
def exampleSession (port playerId : Nat) (regulateQueue : Bool) (depth : Nat)
    (lastUpdate : Int) : Client :=
  { address := { s_addr := 2130706433, sin_port := port }, queue := exampleQueue depth,
    regulateQueue := regulateQueue, playerId := playerId, lastUpdate := lastUpdate }

/-- An environment whose physics step changes nothing. -/
def exampleEnv : Env :=
  { initialBall := { objectState := { position := ⟨0, 0, 0⟩, velocity := ⟨0, 0, 0⟩,
                                      orientation := ⟨0, 0, 0⟩ } },
    initialPlayers := { p0 := examplePlayer 0, p1 := examplePlayer 0 },
    physicsStep := fun ball players => (ball, players) }

/-- Two admissions, an input of the second client, a tick that evicts the first client,
and the admission of a third client. -/
def exampleChurn : List Event :=
  [ .datagram (exampleInput 0) 48 (fun _ => 0) { s_addr := 2130706433, sin_port := 7000 } 0,
    .datagram (exampleInput 0) 48 (fun _ => 0) { s_addr := 2130706433, sin_port := 7001 }
      3000000000,
    .datagram (exampleInput 0) 48 (fun _ => 7) { s_addr := 2130706433, sin_port := 7001 }
      8000000000,
    .tick 1700000000 (fun _ => 9000000000),
    .datagram (exampleInput 0) 48 (fun _ => 0) { s_addr := 2130706433, sin_port := 7002 }
      10000000000 ]

/-- The server after `exampleChurn`. -/
def exampleChurnEnd : Server :=
  { clients :=
      [ { address := { s_addr := 2130706433, sin_port := 7001 },
          queue := [decodeInput (exampleInput 0) (fun _ => 7)],
          regulateQueue := true, playerId := 1, lastUpdate := 8000000000 },
        { address := { s_addr := 2130706433, sin_port := 7002 },
          queue := [], regulateQueue := true, playerId := 0, lastUpdate := 10000000000 } ],
    ball := exampleEnv.initialBall, players := exampleEnv.initialPlayers,
    startTime := 1700000005, transitionTime := 1700000000 }

/-- An environment whose physics step scores a goal for player 0 every time. -/
def scoringEnv : Env :=
  { exampleEnv with
    physicsStep := fun ball players =>
      (ball, { players with p0 := { players.p0 with score := (players.p0.score + 1) % 256 } }) }

/-- A running match with scores 3 and 1: two sessions in steady state with 5 queued
inputs each; the first was last heard of at clock reading 0, the second at 9 s. -/
def exampleMatch : Server :=
  { clients := [exampleSession 7000 0 false 5 0, exampleSession 7001 1 false 5 9000000000],
    ball := { objectState := { position := ⟨4, 5, 6⟩, velocity := ⟨1, 0, 0⟩,
                               orientation := ⟨0, 0, 0⟩ } },
    players := examplePlayers, startTime := 1700000000, transitionTime := 1699999000 }

/-- The eviction tick of the churn example: at 10 s on the steady clock the first session
of `exampleMatch` (idle for 10 s) is reaped, the second (idle for 1 s) stays. -/
def churnEviction : Server × List Packet :=
  (tick exampleEnv 1700000100 (fun _ => 10000000000) exampleMatch).getD (exampleMatch, [])

/-- A tick with the single remaining session, then the admission of a new client. -/
def churnIdle : List Event :=
  [ .tick 1700000101 (fun _ => 10500000000),
    .datagram (exampleInput 0) 48 (fun _ => 0) { s_addr := 2130706433, sin_port := 7002 }
      10600000000 ]

/-- The server once two sessions are registered again. -/
def churnRejoined : Server := (run exampleEnv churnIdle churnEviction.1).getD exampleMatch

/-- The first tick with two sessions again. -/
def churnFinal : Server × List Packet :=
  (tick exampleEnv 1700000102 (fun _ => 10700000000) churnRejoined).getD (exampleMatch, [])

/-- Ticks and ingests of one session that starts with depth 11. -/
def lockedRun : List SessionEvent :=
  [ .regulatorTick examplePlayers, .ingest (exampleInput 20) 1000000000,
    .regulatorTick examplePlayers, .ingest (exampleInput 21) 1100000000,
    .ingest (exampleInput 22) 1200000000, .ingest (exampleInput 23) 1300000000,
    .regulatorTick examplePlayers, .regulatorTick examplePlayers ]

/-- The session after `lockedRun`. -/
def lockedRunEnd : Client :=
  (sessionRun lockedRun (exampleSession 7000 0 false 11 0)).getD (exampleSession 7000 0 false 11 0)

/-- A server with a single session in steady state (5 queued inputs). -/
def idleServer : Server :=
  { clients := [exampleSession 7001 1 false 5 0],
    ball := exampleEnv.initialBall, players := examplePlayers,
    startTime := 1700000005, transitionTime := 1700000000 }

/-- A tick of `idleServer`. -/
def idleTick1 : Server × List Packet :=
  (tick exampleEnv 1700000100 (fun _ => 1000000000) idleServer).getD (idleServer, [])

/-- The next tick, one second later. -/
def idleTick2 : Server × List Packet :=
  (tick exampleEnv 1700000101 (fun _ => 2000000000) idleTick1.1).getD (idleServer, [])

/-- The running match with both sessions recently heard of. -/
def steadyMatch : Server :=
  { exampleMatch with
    clients := [exampleSession 7000 0 false 5 8000000000,
                exampleSession 7001 1 false 5 9000000000] }

/-- A tick of `steadyMatch` in which both sessions consume. -/
def steadyTick : Server × List Packet :=
  (tick exampleEnv 1700000100 (fun _ => 10000000000) steadyMatch).getD (steadyMatch, [])

/-- A regulating session with 3 queued inputs, which is not consumed, and a session in
steady state, which is. -/
def mixedSessions : List Client :=
  [exampleSession 7000 0 true 3 0, exampleSession 7001 1 false 5 0]

/-- The regulator loop on `mixedSessions`. -/
def mixedRegulated : List Client × Players × List Record :=
  (regulate examplePlayers mixedSessions).getD ([], examplePlayers, [])

/-! ## Lemmas on the regulator -/

theorem subSizeT_of_le (a b : Nat) (hb : b ≤ a) (ha : a < 18446744073709551616) :
    subSizeT a b = a - b := by
  unfold subSizeT
  have hb' : b % 18446744073709551616 = b := Nat.mod_eq_of_lt (by omega)
  rw [hb']
  omega

theorem drain_false_one (q : List Input) : drain false 1 q = some q := by
  cases q <;> simp [drain, loopBound]

theorem drain_false_zero (x : Input) (q : List Input) : drain false 0 (x :: q) = some q := by
  simp [drain, loopBound, INT_MAX, drain_false_one]

theorem drain_true_from (q : List Input) : ∀ i : Nat, 5 ≤ q.length → i + 4 ≤ q.length →
    q.length < 18446744073709551616 → i + (q.length - 4 - i) / 2 ≤ INT_MAX →
    drain true i q = some (q.drop ((q.length - 4 - i) / 2)) := by
  induction q with
  | nil => intro i h5; simp at h5
  | cons x q ih =>
    intro i h5 hi hlt hmax
    have hb : loopBound true (q.length + 1) = q.length + 1 - 5 := by
      simp only [loopBound, QUEUE_TARGET, QUEUE_MIN, QUEUE_MAX, if_true]
      exact subSizeT_of_le _ _ (by simpa using h5) (by simpa using hlt)
    simp only [List.length_cons] at h5 hi hlt hmax
    rw [drain]
    rw [hb]
    by_cases hlt' : i < q.length + 1 - 5
    · have hk : (q.length + 1 - 4 - i) / 2 = (q.length - 4 - (i + 1)) / 2 + 1 := by omega
      have hi1 : i + 1 ≤ INT_MAX := by omega
      rw [if_pos hlt', if_pos hi1, ih (i + 1) (by omega) (by omega) (by omega) (by omega)]
      simp only [List.length_cons]
      rw [hk, List.drop_succ_cons]
    · have hk : (q.length + 1 - 4 - i) / 2 = 0 := by omega
      rw [if_neg hlt']
      simp only [List.length_cons]
      rw [hk, List.drop_zero]


theorem regulateClient_skip (players : Players) (c : Client)
    (h : consumes (updateFlag c.regulateQueue c.queue.length) c.queue.length = false) :
    regulateClient players c
      = some ({ c with regulateQueue := updateFlag c.regulateQueue c.queue.length }, players, none) := by
  simp [regulateClient, h]

theorem regulateClient_consume (players players' : Players) (c : Client) (input : Input)
    (rest queue : List Input)
    (h : consumes (updateFlag c.regulateQueue c.queue.length) c.queue.length = true)
    (hq : c.queue = input :: rest)
    (hp : applyInput players c.playerId input = some players')
    (hd : drain (updateFlag c.regulateQueue c.queue.length) 0 c.queue = some queue) :
    regulateClient players c
      = some ({ c with regulateQueue := updateFlag c.regulateQueue c.queue.length, queue := queue },
              players',
              some { address := c.address, playerId := c.playerId, inputId := input.id }) := by
  unfold regulateClient
  simp only [h, if_true]
  rw [hq] at hd ⊢
  simp only [hp, hd, Option.bind_eq_bind, Option.some_bind, Option.pure_def]

theorem consumes_iff (flag : Bool) (d : Nat) :
    consumes (updateFlag flag d) d = true ↔
      (d > 10 ∨ d = 5 ∨ (flag = false ∧ 1 ≤ d ∧ d ≤ 10)) := by
  unfold consumes updateFlag QUEUE_MIN QUEUE_MAX
  by_cases h1 : d < 1 ∨ d > 10
  · simp only [h1, if_true]
    cases flag <;> simp <;> omega
  · simp only [h1, if_false]
    by_cases h5 : d = (1 + 10) / 2
    · simp only [h5, if_true]; simp
    · simp only [h5, if_false]
      have : d ≠ 5 := by omega
      cases flag <;> simp
      omega

theorem applyInput_isSome (players : Players) (playerId : Nat) (input : Input)
    (h : playerId ≤ 1) :
    ∃ players', applyInput players playerId input = some players' := by
  unfold applyInput
  by_cases h0 : playerId = 0
  · simp [h0]
  · have h1 : playerId = 1 := by omega
    simp [h1]

theorem consumes_pos (flag : Bool) (d : Nat)
    (h : consumes (updateFlag flag d) d = true) : 1 ≤ d := by
  rw [consumes_iff] at h
  omega

theorem updateFlag_false_iff (flag : Bool) (d : Nat) :
    updateFlag flag d = false ↔ (d = 5 ∨ (flag = false ∧ 1 ≤ d ∧ d ≤ 10)) := by
  unfold updateFlag QUEUE_MIN QUEUE_MAX
  by_cases h1 : d < 1 ∨ d > 10
  · simp only [h1, if_true]
    simp
    omega
  · simp only [h1, if_false]
    by_cases h5 : d = (1 + 10) / 2
    · simp only [h5, if_true]; simp
    · simp only [h5, if_false]
      have : d ≠ 5 := by omega
      cases flag <;> simp
      all_goals omega

theorem updateFlag_true_of_gt (flag : Bool) (d : Nat) (h : d > 10) :
    updateFlag flag d = true := by
  unfold updateFlag QUEUE_MIN QUEUE_MAX
  simp [h]


theorem getPlayer_isSome (players : Players) (playerId : Nat) (h : playerId ≤ 1) :
    ∃ p, getPlayer players playerId = some p := by
  unfold getPlayer
  by_cases h0 : playerId = 0
  · simp [h0]
  · have h1 : playerId = 1 := by omega
    simp [h1]

/-- After `applyInput`, `players[playerId]` is the old player with the input's action and
car state. -/
theorem getPlayer_applyInput (players players' : Players) (playerId : Nat) (input : Input)
    (h : applyInput players playerId input = some players') :
    (getPlayer players playerId).map
        (fun p => { p with action := input.player.action, carState := input.player.carState })
      = getPlayer players' playerId := by
  unfold applyInput at h
  unfold getPlayer
  by_cases h0 : playerId = 0
  · simp only [h0, if_true, Option.some.injEq] at h ⊢
    rw [← h]; rfl
  · by_cases h1 : playerId = 1
    · simp only [h1, if_true, Option.some.injEq, show (1 : Nat) ≠ 0 by decide, if_false] at h ⊢
      rw [← h]; rfl
    · simp [h0, h1] at h

/-- The function `applyInput` leaves the other player alone. -/
theorem getPlayer_applyInput_other (players players' : Players) (playerId other : Nat)
    (input : Input) (h : applyInput players playerId input = some players')
    (hne : other ≠ playerId) :
    getPlayer players' other = getPlayer players other := by
  unfold applyInput at h
  unfold getPlayer
  by_cases h0 : playerId = 0
  · simp only [h0, if_true, Option.some.injEq] at h
    have : other ≠ 0 := by omega
    rw [← h]; simp [this]
  · by_cases h1 : playerId = 1
    · simp only [h1, if_true, Option.some.injEq, show (1 : Nat) ≠ 0 by decide, if_false] at h
      have : other ≠ 1 := by omega
      rw [← h]; simp [this]
    · simp [h0, h1] at h

/-- The scores are not touched by `applyInput`. -/
theorem applyInput_score (players players' : Players) (playerId : Nat) (input : Input)
    (h : applyInput players playerId input = some players') :
    players'.p0.score = players.p0.score ∧ players'.p1.score = players.p1.score := by
  unfold applyInput at h
  by_cases h0 : playerId = 0
  · simp only [h0, if_true, Option.some.injEq] at h
    rw [← h]; exact ⟨rfl, rfl⟩
  · by_cases h1 : playerId = 1
    · simp only [h1, if_true, Option.some.injEq, show (1 : Nat) ≠ 0 by decide, if_false] at h
      rw [← h]; exact ⟨rfl, rfl⟩
    · simp [h0, h1] at h

/-- The drain of a consuming client succeeds and removes at least the front. -/
theorem drain_consume (flag : Bool) (q : List Input)
    (h : consumes (updateFlag flag q.length) q.length = true) (hlen : q.length < 4294967296) :
    ∃ k, 0 < k ∧ k ≤ q.length ∧ drain (updateFlag flag q.length) 0 q = some (q.drop k) := by
  by_cases hgt : q.length > 10
  · rw [updateFlag_true_of_gt flag _ hgt,
      drain_true_from q 0 (by omega) (by omega) (by omega) (by unfold INT_MAX; omega)]
    exact ⟨(q.length - 4 - 0) / 2, by omega, by omega, rfl⟩
  · have hf : updateFlag flag q.length = false := by
      unfold consumes at h
      simp only [Bool.or_eq_true, Bool.not_eq_true', decide_eq_true_eq] at h
      rcases h with h | h
      · exact h
      · exact absurd h hgt
    have hpos := consumes_pos flag q.length h
    rw [hf]
    cases q with
    | nil => simp at hpos
    | cons x q => exact ⟨1, by omega, by simp, by simp [drain_false_zero]⟩

theorem regulateClient_flag (players : Players) (c : Client)
    (out : Client × Players × Option Record) (h : regulateClient players c = some out) :
    out.1.regulateQueue = updateFlag c.regulateQueue c.queue.length := by
  by_cases hc : consumes (updateFlag c.regulateQueue c.queue.length) c.queue.length = true
  · unfold regulateClient at h
    simp only [hc, if_true] at h
    cases hq : c.queue with
    | nil => rw [hq] at h; simp at h
    | cons x q =>
      rw [hq] at h
      simp only [Option.bind_eq_bind, Option.pure_def, Option.bind_eq_some] at h
      obtain ⟨p, -, q', -, h⟩ := h
      simp only [Option.some.injEq] at h
      rw [← h]
  · have hc' : consumes (updateFlag c.regulateQueue c.queue.length) c.queue.length = false := by
      simpa using hc
    rw [regulateClient_skip players c hc'] at h
    simp only [Option.some.injEq] at h
    rw [← h]

theorem flagsAlong_step (ds : List Nat) : ∀ (flag : Bool) (k dk : Nat) (f f' : Bool),
    ds[k]? = some dk → (flagsAlong flag ds)[k]? = some f →
    (flagsAlong flag ds)[k + 1]? = some f' → f' = updateFlag f dk := by
  induction ds with
  | nil => intro flag k dk f f' h; simp at h
  | cons d ds ih =>
    intro flag k dk f f' hd hf hf'
    cases k with
    | zero =>
      simp only [List.getElem?_cons_zero, Option.some.injEq] at hd
      simp only [flagsAlong, List.getElem?_cons_zero, Option.some.injEq] at hf
      simp only [flagsAlong, zero_add, List.getElem?_cons_succ] at hf'
      subst hd hf
      cases ds with
      | nil => simpa [flagsAlong] using hf'.symm
      | cons e es => simpa [flagsAlong] using hf'.symm
    | succ k =>
      simp only [List.getElem?_cons_succ] at hd
      simp only [flagsAlong, List.getElem?_cons_succ] at hf hf'
      exact ih _ k dk f f' hd hf hf'

/-! ## Lemmas on the registry -/

theorem updateClient_ids (f : Client → Client) (hf : ∀ c, (f c).playerId = c.playerId)
    (clients : List Client) : ∀ i,
    (updateClient f i clients).map (fun c => c.playerId) = clients.map (fun c => c.playerId) := by
  induction clients with
  | nil => intro i; simp [updateClient]
  | cons c cs ih =>
    intro i
    cases i with
    | zero => simp [updateClient, hf]
    | succ i => simp [updateClient, ih i]

theorem regulateClient_id (players : Players) (c : Client)
    (out : Client × Players × Option Record) (h : regulateClient players c = some out) :
    out.1.playerId = c.playerId := by
  by_cases hc : consumes (updateFlag c.regulateQueue c.queue.length) c.queue.length = true
  · unfold regulateClient at h
    simp only [hc, if_true] at h
    cases hq : c.queue with
    | nil => rw [hq] at h; simp at h
    | cons x q =>
      rw [hq] at h
      simp only [Option.bind_eq_bind, Option.pure_def, Option.bind_eq_some] at h
      obtain ⟨p, -, q', -, h⟩ := h
      simp only [Option.some.injEq] at h
      rw [← h]
  · have hc' : consumes (updateFlag c.regulateQueue c.queue.length) c.queue.length = false := by
      simpa using hc
    rw [regulateClient_skip players c hc'] at h
    simp only [Option.some.injEq] at h
    rw [← h]

theorem regulate_cons (players : Players) (c : Client) (cs : List Client)
    (out : List Client × Players × List Record) (h : regulate players (c :: cs) = some out) :
    ∃ c' players' r cs' players'' rs, regulateClient players c = some (c', players', r) ∧
      regulate players' cs = some (cs', players'', rs) ∧
      out = (c' :: cs', players'', r.toList ++ rs) := by
  rw [regulate] at h
  simp only [Option.bind_eq_bind, Option.pure_def, Option.bind_eq_some] at h
  obtain ⟨⟨c', players', r⟩, h1, ⟨cs', players'', rs⟩, h2, h3⟩ := h
  simp only [Option.some.injEq] at h3
  exact ⟨c', players', r, cs', players'', rs, h1, h2, h3.symm⟩

theorem regulate_ids (clients : List Client) : ∀ (players : Players)
    (out : List Client × Players × List Record), regulate players clients = some out →
    out.1.map (fun c => c.playerId) = clients.map (fun c => c.playerId) := by
  induction clients with
  | nil =>
    intro players out h
    simp only [regulate, Option.some.injEq] at h
    rw [← h]
  | cons c cs ih =>
    intro players out h
    obtain ⟨c', players', r, cs', players'', rs, h1, h2, rfl⟩ := regulate_cons players c cs out h
    have hid := regulateClient_id players c _ h1
    have hrest := ih players' _ h2
    simp only [List.map_cons] at hrest ⊢
    rw [hid, hrest]

theorem reapFrom_cons_eq_some (clock : Nat → Int) (i : Nat) (c : Client)
    (cs kept : List Client) (h : reapFrom clock i (c :: cs) = some kept) :
    ∃ remove rest, stale (clock i) c = some remove ∧
      reapFrom clock (i + 1) cs = some rest ∧
      kept = if remove = true then rest else c :: rest := by
  rw [reapFrom] at h
  simp only [Option.bind_eq_bind, Option.pure_def, Option.bind_eq_some,
    Option.some.injEq] at h
  obtain ⟨remove, h1, rest, h2, h3⟩ := h
  exact ⟨remove, rest, h1, h2, h3.symm⟩

theorem reapFrom_sublist (clock : Nat → Int) (clients : List Client) :
    ∀ (i : Nat) (kept : List Client), reapFrom clock i clients = some kept →
    List.Sublist kept clients := by
  induction clients with
  | nil =>
    intro i kept h
    simp only [reapFrom, Option.some.injEq] at h
    rw [← h]
  | cons c cs ih =>
    intro i kept h
    obtain ⟨remove, rest, -, h2, rfl⟩ := reapFrom_cons_eq_some clock i c cs kept h
    cases remove with
    | true => exact List.Sublist.cons c (ih (i + 1) rest h2)
    | false => exact List.Sublist.cons₂ c (ih (i + 1) rest h2)

theorem RegistryInv_sublist (kept clients : List Client) (hs : List.Sublist kept clients)
    (h : RegistryInv clients) : RegistryInv kept := by
  unfold RegistryInv at h ⊢
  have hm : List.Sublist (kept.map (fun c => c.playerId)) (clients.map (fun c => c.playerId)) :=
    hs.map _
  generalize kept.map (fun c => c.playerId) = l' at hm ⊢
  generalize clients.map (fun c => c.playerId) = l at h hm
  simp only [List.mem_cons, List.mem_singleton, List.not_mem_nil, or_false] at h
  rcases h with rfl | rfl | rfl | rfl | rfl
  · rw [List.sublist_nil] at hm
    simp [hm]
  · rw [← List.mem_sublists, show List.sublists [0] = [[], [0]] by decide] at hm
    simp only [List.mem_cons, List.mem_singleton, List.not_mem_nil, or_false] at hm ⊢
    tauto
  · rw [← List.mem_sublists, show List.sublists [1] = [[], [1]] by decide] at hm
    simp only [List.mem_cons, List.mem_singleton, List.not_mem_nil, or_false] at hm ⊢
    tauto
  · rw [← List.mem_sublists, show List.sublists [0, 1] = [[], [0], [1], [0, 1]] by decide] at hm
    simp only [List.mem_cons, List.mem_singleton, List.not_mem_nil, or_false] at hm ⊢
    tauto
  · rw [← List.mem_sublists, show List.sublists [1, 0] = [[], [1], [0], [1, 0]] by decide] at hm
    simp only [List.mem_cons, List.mem_singleton, List.not_mem_nil, or_false] at hm ⊢
    tauto

theorem RegistryInv_reap (clock : Nat → Int) (clients kept : List Client)
    (h : RegistryInv clients) (hr : reap clock clients = some kept) : RegistryInv kept :=
  RegistryInv_sublist kept clients (reapFrom_sublist clock clients 0 kept hr) h

theorem RegistryInv_receiveOne (fresh : Input) (recvLength : Int) (buffer : Nat → Nat)
    (clientAddress : SockAddr) (now : Int) (clients : List Client)
    (out : List Client × Option Reply) (h : RegistryInv clients)
    (hr : receiveOne fresh recvLength buffer clientAddress now clients = some out) :
    RegistryInv out.1 := by
  unfold receiveOne at hr
  by_cases h0 : recvLength = 0
  · simp [h0] at hr
  · simp only [h0, if_false] at hr
    cases hf : findClient clientAddress clients with
    | none =>
      rw [hf] at hr
      simp only at hr
      by_cases h2 : clients.length < 2
      · simp only [h2, if_true, Option.some.injEq] at hr
        rw [← hr]
        unfold RegistryInv at h ⊢
        match clients, h, h2 with
        | [], _, _ => simp [newPlayerId]
        | [a], h, _ =>
          simp only [List.map_cons, List.map_nil, List.mem_cons, List.cons.injEq, and_true,
            List.mem_singleton, List.not_mem_nil, or_false, reduceCtorEq, false_or,
            and_false] at h
          rcases h with h | h <;> simp [newPlayerId, h]
        | _ :: _ :: _, _, h2 => simp at h2; omega
      · simp only [h2, if_false, Option.some.injEq] at hr
        rw [← hr]; exact h
    | some i =>
      rw [hf] at hr
      simp only [Option.some.injEq] at hr
      rw [← hr]
      unfold RegistryInv at h ⊢
      show List.map (fun c => c.playerId) (updateClient _ i clients) ∈ _
      rw [updateClient_ids]
      · exact h
      · intro c; rfl

theorem RegistryInv_step (e : RegistryEvent) (clients out : List Client)
    (h : RegistryInv clients) (hs : registryStep e clients = some out) : RegistryInv out := by
  cases e with
  | datagram fresh recvLength buffer clientAddress now =>
    simp only [registryStep, Option.map_eq_some'] at hs
    obtain ⟨r, hr, rfl⟩ := hs
    exact RegistryInv_receiveOne fresh recvLength buffer clientAddress now clients r h hr
  | reaping clock =>
    simp only [registryStep] at hs
    exact RegistryInv_reap clock clients out h hs
  | regulating players =>
    simp only [registryStep, Option.map_eq_some'] at hs
    obtain ⟨r, hr, rfl⟩ := hs
    unfold RegistryInv at h ⊢
    rw [regulate_ids clients players r hr]
    exact h

theorem RegistryInv_run (es : List RegistryEvent) : ∀ (clients out : List Client),
    RegistryInv clients → registryRun es clients = some out → RegistryInv out := by
  induction es with
  | nil =>
    intro clients out h hr
    simp only [registryRun, Option.some.injEq] at hr
    rw [← hr]; exact h
  | cons e es ih =>
    intro clients out h hr
    simp only [registryRun, Option.bind_eq_some] at hr
    obtain ⟨mid, h1, h2⟩ := hr
    exact ih mid out (RegistryInv_step e clients mid h h1) h2

theorem RegistryInv_spec (clients : List Client) (h : RegistryInv clients) :
    clients.length ≤ 2 ∧ (∀ c ∈ clients, c.playerId = 0 ∨ c.playerId = 1) ∧
    (∀ a b, clients = [a, b] → a.playerId ≠ b.playerId ∧
      ((a.playerId = 0 ∧ b.playerId = 1) ∨ (a.playerId = 1 ∧ b.playerId = 0))) := by
  unfold RegistryInv at h
  match clients, h with
  | [], _ => simp
  | [a], h =>
    simp only [List.map_cons, List.map_nil, List.mem_cons, List.cons.injEq, and_true,
      List.mem_singleton, List.not_mem_nil, or_false, reduceCtorEq, false_or, and_false] at h
    simp [h]
  | [a, b], h =>
    simp only [List.map_cons, List.map_nil, List.mem_cons, List.cons.injEq, and_true,
      List.mem_singleton, List.not_mem_nil, or_false, reduceCtorEq, false_or, and_false] at h
    refine ⟨by simp, ?_, ?_⟩
    · intro c hc
      simp only [List.mem_cons, List.mem_singleton, List.not_mem_nil, or_false] at hc
      rcases hc with rfl | rfl <;> omega
    · intro a' b' hab
      simp only [List.cons.injEq, and_true] at hab
      obtain ⟨rfl, rfl⟩ := hab
      omega
  | _ :: _ :: _ :: _, h => simp at h

/-! ## Lemmas on the phases of a tick -/

theorem i64_of_InI64 (x : Int) (h : InI64 x) : i64 x = some x := by
  unfold i64
  exact if_pos h

theorem i64_eq_some (x y : Int) (h : i64 x = some y) : y = x := by
  unfold i64 at h
  split at h
  · exact (Option.some.inj h).symm
  · exact absurd h (by simp)

theorem clockCheck_idle (env : Env) (currentTime : Int) (s : Server)
    (h : s.clients.length ≠ 2) :
    clockCheck env currentTime s = some { s with startTime := 0 } := by
  unfold clockCheck
  rw [if_neg h]
  rfl

theorem clockCheck_keep (env : Env) (currentTime : Int) (s : Server)
    (h : s.clients.length = 2) (hin : InI64 (currentTime - s.startTime))
    (hle : currentTime - s.startTime ≤ 300) :
    clockCheck env currentTime s = some s := by
  unfold clockCheck
  rw [if_pos h, i64_of_InI64 _ hin]
  have : ¬ (currentTime - s.startTime > GAME_DURATION) := by unfold GAME_DURATION; omega
  simp only [Option.bind_eq_bind, Option.some_bind, this, if_false]
  rfl

theorem clockCheck_reset (env : Env) (currentTime : Int) (s : Server)
    (h : s.clients.length = 2) (hin : InI64 (currentTime - s.startTime))
    (hin5 : InI64 (currentTime + 5)) (hgt : currentTime - s.startTime > 300) :
    clockCheck env currentTime s
      = some { s with startTime := currentTime + 5, transitionTime := currentTime,
                      ball := env.initialBall,
                      players := { p0 := { s.players.p0 with score := 0 },
                                   p1 := { s.players.p1 with score := 0 } } } := by
  unfold clockCheck
  rw [if_pos h, i64_of_InI64 _ hin]
  have : currentTime - s.startTime > GAME_DURATION := by unfold GAME_DURATION; omega
  simp only [Option.bind_eq_bind, Option.some_bind, this, if_true, i64_of_InI64 _ hin5]
  rfl

theorem clockCheck_clients (env : Env) (currentTime : Int) (s s1 : Server)
    (h : clockCheck env currentTime s = some s1) : s1.clients = s.clients := by
  unfold clockCheck at h
  split at h
  · simp only [Option.bind_eq_bind, Option.bind_eq_some] at h
    obtain ⟨e, -, h⟩ := h
    split at h
    · simp only [Option.bind_eq_some] at h
      obtain ⟨st, -, h⟩ := h
      simp only [Option.pure_def, Option.some.injEq] at h
      rw [← h]
    · simp only [Option.pure_def, Option.some.injEq] at h
      rw [← h]
  · simp only [Option.pure_def, Option.some.injEq] at h
    rw [← h]

theorem scorePhase_clients (env : Env) (currentTime : Int) (s s4 : Server)
    (h : scorePhase env currentTime s = some s4) : s4.clients = s.clients := by
  unfold scorePhase at h
  simp only at h
  split at h
  · simp only [Option.bind_eq_bind, Option.bind_eq_some, Option.pure_def,
      Option.some.injEq] at h
    obtain ⟨st, -, h⟩ := h
    rw [← h]
  · simp only [Option.pure_def, Option.some.injEq] at h
    rw [← h]

theorem regulatePhase_eq_some (s s3 : Server) (records : List Record)
    (h : regulatePhase s = some (s3, records)) :
    regulate s.players s.clients = some (s3.clients, s3.players, records) ∧
      s3 = { s with clients := s3.clients, players := s3.players } := by
  unfold regulatePhase at h
  simp only [Option.bind_eq_bind, Option.pure_def, Option.bind_eq_some, Option.some.injEq,
    Prod.mk.injEq] at h
  obtain ⟨⟨cs, ps, rs⟩, h1, h2, h3⟩ := h
  subst h2 h3
  exact ⟨h1, rfl⟩

theorem tick_eq_some (env : Env) (currentTime : Int) (clock : Nat → Int) (s : Server)
    (out : Server × List Packet) (h : tick env currentTime clock s = some out) :
    ∃ s1 kept s3 records,
      clockCheck env currentTime s = some s1 ∧
      reap clock s1.clients = some kept ∧
      regulatePhase { s1 with clients := kept } = some (s3, records) ∧
      broadcast currentTime s3 records = some out.2 ∧
      scorePhase env currentTime s3 = some out.1 := by
  unfold tick at h
  simp only [Option.bind_eq_bind, Option.pure_def, Option.bind_eq_some, Option.some.injEq] at h
  obtain ⟨s1, h1, kept, hk, ⟨s3, records⟩, h2, packets, h3, s4, h4, h5⟩ := h
  subst h5
  exact ⟨s1, kept, s3, records, h1, hk, h2, h3, h4⟩

theorem tick_of_phases (env : Env) (currentTime : Int) (clock : Nat → Int)
    (s s1 s3 s4 : Server) (kept : List Client) (records : List Record)
    (packets : List Packet)
    (h1 : clockCheck env currentTime s = some s1)
    (hk : reap clock s1.clients = some kept)
    (h2 : regulatePhase { s1 with clients := kept } = some (s3, records))
    (h3 : broadcast currentTime s3 records = some packets)
    (h4 : scorePhase env currentTime s3 = some s4) :
    tick env currentTime clock s = some (s4, packets) := by
  unfold tick
  simp only [Option.bind_eq_bind, Option.pure_def, h1, Option.some_bind, hk, h2, h3, h4]

/-- The registry after a tick is the registry after its reap and its regulator loop. -/
theorem tick_registry (env : Env) (currentTime : Int) (clock : Nat → Int) (s : Server)
    (out : Server × List Packet) (h : tick env currentTime clock s = some out) :
    ∃ players, registryRun [.reaping clock, .regulating players] s.clients
      = some out.1.clients := by
  obtain ⟨s1, kept, s3, records, h1, hk, h2, -, h4⟩ :=
    tick_eq_some env currentTime clock s out h
  obtain ⟨h2, -⟩ := regulatePhase_eq_some _ s3 records h2
  simp only at h2
  refine ⟨s1.players, ?_⟩
  rw [clockCheck_clients env currentTime s s1 h1] at hk
  simp only [registryRun, registryStep, hk, Option.some_bind, h2, Option.map_some',
    scorePhase_clients env currentTime s3 out.1 h4]

theorem RegistryInv_serverStep (env : Env) (e : Event) (s s' : Server)
    (h : RegistryInv s.clients) (hs : step env e s = some s') : RegistryInv s'.clients := by
  cases e with
  | datagram fresh recvLength buffer clientAddress now =>
    simp only [step, Option.map_eq_some'] at hs
    obtain ⟨r, hr, rfl⟩ := hs
    exact RegistryInv_receiveOne fresh recvLength buffer clientAddress now s.clients r h hr
  | tick currentTime clock =>
    simp only [step, Option.map_eq_some'] at hs
    obtain ⟨r, hr, rfl⟩ := hs
    obtain ⟨players, hp⟩ := tick_registry env currentTime clock s r hr
    exact RegistryInv_run _ s.clients r.1.clients h hp

theorem RegistryInv_serverRun (env : Env) (es : List Event) : ∀ (s s' : Server),
    RegistryInv s.clients → run env es s = some s' → RegistryInv s'.clients := by
  induction es with
  | nil =>
    intro s s' h hr
    simp only [run, Option.some.injEq] at hr
    rw [← hr]; exact h
  | cons e es ih =>
    intro s s' h hr
    simp only [run, Option.bind_eq_some] at hr
    obtain ⟨mid, h1, h2⟩ := hr
    exact ih mid s' (RegistryInv_serverStep env e s mid h h1) h2

theorem RegistryInv_nil : RegistryInv [] := by
  simp [RegistryInv]

theorem tdiv_seconds_gt (x : Int) :
    Int.tdiv x STEADY_TICKS_PER_SECOND > 5 ↔ 6 * STEADY_TICKS_PER_SECOND ≤ x := by
  unfold STEADY_TICKS_PER_SECOND
  by_cases h : 0 ≤ x
  · rw [Int.tdiv_eq_ediv h (by decide)]
    omega
  · have hneg : x = -(-x) := by omega
    have h' : 0 ≤ -x := by omega
    rw [hneg, Int.neg_tdiv, Int.tdiv_eq_ediv h' (by decide)]
    omega

theorem stale_eq (now : Int) (c : Client) (h : InI64 (now - c.lastUpdate)) :
    stale now c = some (decide (6 * STEADY_TICKS_PER_SECOND ≤ now - c.lastUpdate)) := by
  unfold stale
  rw [i64_of_InI64 _ h]
  simp only [Option.bind_eq_bind, Option.some_bind, Option.pure_def, Option.some.injEq]
  exact decide_eq_decide.2 (tdiv_seconds_gt _)

theorem reapFrom_eq_filter (clock : Nat → Int) (clients : List Client) : ∀ i,
    (∀ jc ∈ clients.enumFrom i, InI64 (clock jc.1 - jc.2.lastUpdate)) →
    reapFrom clock i clients
      = some (((clients.enumFrom i).filter
          (fun jc => !decide (6 * STEADY_TICKS_PER_SECOND ≤ clock jc.1 - jc.2.lastUpdate))).map
          Prod.snd) := by
  induction clients with
  | nil => intro i _; rfl
  | cons c cs ih =>
    intro i hr
    rw [List.enumFrom_cons] at hr
    have hc := hr (i, c) (List.mem_cons_self _ _)
    have hrest := ih (i + 1) (fun jc hjc => hr jc (List.mem_cons_of_mem _ hjc))
    rw [reapFrom, stale_eq (clock i) c hc, hrest, List.enumFrom_cons, List.filter_cons]
    simp only [Option.bind_eq_bind, Option.some_bind, Option.pure_def, Option.some.injEq]
    by_cases h6 : 6 * STEADY_TICKS_PER_SECOND ≤ clock i - c.lastUpdate
    · simp [h6]
    · simp [h6]

theorem statePacket_countdown (currentTime : Int) (s : Server) (r : Record) (p : Packet)
    (h : statePacket currentTime s r = some p) :
    p.countdown = max 0 (300 - currentTime + s.startTime) ∧
    p.transitionCountdown = max 0 (5 - currentTime + s.transitionTime) := by
  unfold statePacket at h
  simp only [Option.bind_eq_bind, Option.pure_def, Option.bind_eq_some, Option.some.injEq] at h
  obtain ⟨c0, hc0, cd, hcd, t0, ht0, tc, htc, other, -, hp⟩ := h
  have e1 := i64_eq_some _ _ hc0
  have e2 := i64_eq_some _ _ hcd
  have e3 := i64_eq_some _ _ ht0
  have e4 := i64_eq_some _ _ htc
  unfold GAME_DURATION at e1
  unfold TRANSITION_DURATION at e3
  rw [← hp]
  simp only
  subst e1 e3
  subst e2 e4
  constructor
  · split <;> omega
  · split <;> omega

theorem broadcast_mem (currentTime : Int) (s : Server) (records : List Record) :
    ∀ (packets : List Packet), broadcast currentTime s records = some packets →
    ∀ p ∈ packets, ∃ r ∈ records, statePacket currentTime s r = some p := by
  induction records with
  | nil =>
    intro packets h p hp
    simp only [broadcast, Option.some.injEq] at h
    rw [← h] at hp
    simp at hp
  | cons r rs ih =>
    intro packets h p hp
    rw [broadcast] at h
    simp only [Option.bind_eq_bind, Option.pure_def, Option.bind_eq_some,
      Option.some.injEq] at h
    obtain ⟨q, hq, qs, hqs, rfl⟩ := h
    rcases List.mem_cons.1 hp with rfl | hmem
    · exact ⟨r, List.mem_cons_self _ _, hq⟩
    · obtain ⟨r', hr', hsp⟩ := ih qs hqs p hmem
      exact ⟨r', List.mem_cons_of_mem _ hr', hsp⟩

theorem clockCheck_two (env : Env) (currentTime : Int) (s s1 : Server)
    (h2 : s.clients.length = 2) (h : clockCheck env currentTime s = some s1) :
    (currentTime - s.startTime ≤ 300 → s1 = s) ∧
    (currentTime - s.startTime > 300 →
      s1.players.p0.score = 0 ∧ s1.players.p1.score = 0 ∧ s1.startTime = currentTime + 5) := by
  unfold clockCheck at h
  rw [if_pos h2] at h
  simp only [Option.bind_eq_bind, Option.bind_eq_some] at h
  obtain ⟨e, he, h⟩ := h
  have he' := i64_eq_some _ _ he
  subst he'
  unfold GAME_DURATION at h
  constructor
  · intro hle
    have : ¬ (currentTime - s.startTime > 300) := by omega
    rw [if_neg this] at h
    exact (Option.some.inj h).symm
  · intro hgt
    rw [if_pos hgt] at h
    simp only [Option.bind_eq_some, Option.pure_def, Option.some.injEq] at h
    obtain ⟨st, hst, h⟩ := h
    have := i64_eq_some _ _ hst
    subst this
    rw [← h]
    exact ⟨rfl, rfl, rfl⟩

theorem scorePhase_spec (env : Env) (currentTime : Int) (s s' : Server)
    (h : scorePhase env currentTime s = some s') :
    s'.players = (env.physicsStep s.ball s.players).2 ∧
    s'.ball = (env.physicsStep s.ball s.players).1 ∧
    s'.clients = s.clients ∧
    ((s'.players.p0.score ≠ s.players.p0.score ∨ s'.players.p1.score ≠ s.players.p1.score) →
      s'.startTime = s.startTime + 5 ∧ s'.transitionTime = currentTime) ∧
    ((s'.players.p0.score = s.players.p0.score ∧ s'.players.p1.score = s.players.p1.score) →
      s'.startTime = s.startTime ∧ s'.transitionTime = s.transitionTime) := by
  unfold scorePhase at h
  simp only at h
  split at h
  · rename_i hch
    simp only [Option.bind_eq_bind, Option.bind_eq_some, Option.pure_def,
      Option.some.injEq] at h
    obtain ⟨st, hst, h⟩ := h
    have := i64_eq_some _ _ hst
    subst this
    rw [← h]
    refine ⟨rfl, rfl, rfl, fun _ => ⟨rfl, rfl⟩, ?_⟩
    intro hsame
    simp only at hsame
    exact absurd hsame (by
      intro hs
      rcases hch with hc | hc
      · exact hc hs.1
      · exact hc hs.2)
  · rename_i hch
    simp only [Option.pure_def, Option.some.injEq] at h
    rw [← h]
    refine ⟨rfl, rfl, rfl, ?_, fun _ => ⟨rfl, rfl⟩⟩
    intro hdiff
    exact absurd hdiff hch

theorem scorePhase_isSome (env : Env) (currentTime : Int) (s : Server)
    (hadd : InI64 (s.startTime + 5)) : ∃ s', scorePhase env currentTime s = some s' := by
  unfold scorePhase
  simp only
  split
  · rw [i64_of_InI64 _ hadd]
    exact ⟨_, rfl⟩
  · exact ⟨_, rfl⟩

/-- The countdown of every packet of a tick is computed from the `startTime` left by the
clock check of that tick. -/
theorem tick_countdown (env : Env) (currentTime : Int) (clock : Nat → Int) (s : Server)
    (out : Server × List Packet) (h : tick env currentTime clock s = some out) :
    ∃ s1, clockCheck env currentTime s = some s1 ∧
      ∀ p ∈ out.2, p.countdown = max 0 (300 - currentTime + s1.startTime) ∧
        p.transitionCountdown = max 0 (5 - currentTime + s1.transitionTime) := by
  obtain ⟨s1, kept, s3, records, h1, -, h2, h3, -⟩ :=
    tick_eq_some env currentTime clock s out h
  refine ⟨s1, h1, ?_⟩
  intro p hp
  obtain ⟨r, -, hr⟩ := broadcast_mem currentTime s3 records out.2 h3 p hp
  obtain ⟨-, h3eq⟩ := regulatePhase_eq_some _ s3 records h2
  have hst : s3.startTime = s1.startTime := by rw [h3eq]
  have htt : s3.transitionTime = s1.transitionTime := by rw [h3eq]
  rw [← hst, ← htt]
  exact statePacket_countdown currentTime s3 r p hr

theorem regulateClient_scores (players : Players) (c : Client)
    (out : Client × Players × Option Record) (h : regulateClient players c = some out) :
    out.2.1.p0.score = players.p0.score ∧ out.2.1.p1.score = players.p1.score := by
  by_cases hc : consumes (updateFlag c.regulateQueue c.queue.length) c.queue.length = true
  · unfold regulateClient at h
    simp only [hc, if_true] at h
    cases hq : c.queue with
    | nil => rw [hq] at h; simp at h
    | cons x q =>
      rw [hq] at h
      simp only [Option.bind_eq_bind, Option.pure_def, Option.bind_eq_some] at h
      obtain ⟨p, hp, q', -, h⟩ := h
      simp only [Option.some.injEq] at h
      rw [← h]
      exact applyInput_score players p c.playerId x hp
  · have hc' : consumes (updateFlag c.regulateQueue c.queue.length) c.queue.length = false := by
      simpa using hc
    rw [regulateClient_skip players c hc'] at h
    simp only [Option.some.injEq] at h
    rw [← h]
    exact ⟨rfl, rfl⟩

theorem regulate_scores (clients : List Client) : ∀ (players : Players)
    (out : List Client × Players × List Record), regulate players clients = some out →
    out.2.1.p0.score = players.p0.score ∧ out.2.1.p1.score = players.p1.score := by
  induction clients with
  | nil =>
    intro players out h
    simp only [regulate, Option.some.injEq] at h
    rw [← h]
    exact ⟨rfl, rfl⟩
  | cons c cs ih =>
    intro players out h
    obtain ⟨c', players', r, cs', players'', rs, h1, h2, rfl⟩ := regulate_cons players c cs out h
    have ha := regulateClient_scores players c _ h1
    have hb := ih players' _ h2
    simp only at ha hb ⊢
    exact ⟨hb.1.trans ha.1, hb.2.trans ha.2⟩

/-- When the physics step changes no score, a tick leaves the scores and `startTime` as
its clock check set them. -/
theorem tick_scores (env : Env)
    (hphys : ∀ ball players, (env.physicsStep ball players).2.p0.score = players.p0.score ∧
      (env.physicsStep ball players).2.p1.score = players.p1.score)
    (currentTime : Int) (clock : Nat → Int) (s : Server) (out : Server × List Packet)
    (h : tick env currentTime clock s = some out) :
    ∃ s1, clockCheck env currentTime s = some s1 ∧ scoresOf out.1 = scoresOf s1 ∧
      out.1.startTime = s1.startTime := by
  obtain ⟨s1, kept, s3, records, h1, -, h2, -, h4⟩ :=
    tick_eq_some env currentTime clock s out h
  refine ⟨s1, h1, ?_⟩
  obtain ⟨hreg, h3eq⟩ := regulatePhase_eq_some _ s3 records h2
  have hsc := regulate_scores _ _ _ hreg
  simp only at hsc
  obtain ⟨hp, -, -, -, hsame⟩ := scorePhase_spec env currentTime s3 out.1 h4
  have hph := hphys s3.ball s3.players
  have hst : s3.startTime = s1.startTime := by rw [h3eq]
  rw [← hp] at hph
  refine ⟨?_, ?_⟩
  · unfold scoresOf
    rw [hph.1, hph.2, hsc.1, hsc.2]
  · rw [(hsame hph).1, hst]

theorem step_datagram_frame (env : Env) (fresh : Input) (recvLength : Int)
    (buffer : Nat → Nat) (clientAddress : SockAddr) (now : Int) (s s' : Server)
    (h : step env (.datagram fresh recvLength buffer clientAddress now) s = some s') :
    s'.players = s.players ∧ s'.ball = s.ball ∧ s'.startTime = s.startTime ∧
      s'.transitionTime = s.transitionTime := by
  simp only [step, Option.map_eq_some'] at h
  obtain ⟨r, -, rfl⟩ := h
  exact ⟨rfl, rfl, rfl, rfl⟩

theorem idle_run (env : Env)
    (hphys : ∀ ball players, (env.physicsStep ball players).2.p0.score = players.p0.score ∧
      (env.physicsStep ball players).2.p1.score = players.p1.score)
    (events : List Event) : ∀ (s s' : Server), run env events s = some s' →
    idleTicks env events s = true →
    scoresOf s' = scoresOf s ∧
      ((events.any isTick = true ∨ s.startTime = 0) → s'.startTime = 0) := by
  induction events with
  | nil =>
    intro s s' hr _
    simp only [run, Option.some.injEq] at hr
    subst hr
    refine ⟨rfl, ?_⟩
    intro h
    rcases h with h | h
    · simp at h
    · exact h
  | cons e es ih =>
    intro s s' hr hidle
    simp only [run, Option.bind_eq_some] at hr
    obtain ⟨mid, hstep, hrest⟩ := hr
    simp only [idleTicks, hstep, Bool.and_eq_true, Bool.or_eq_true, Bool.not_eq_true',
      decide_eq_true_eq] at hidle
    obtain ⟨hnow, hlater⟩ := hidle
    obtain ⟨hsc, hst⟩ := ih mid s' hrest hlater
    cases e with
    | datagram fresh recvLength buffer clientAddress now =>
      obtain ⟨hp, -, hs, -⟩ :=
        step_datagram_frame env fresh recvLength buffer clientAddress now s mid hstep
      refine ⟨?_, ?_⟩
      · rw [hsc]; unfold scoresOf; rw [hp]
      · intro h
        apply hst
        rcases h with h | h
        · left; simpa [isTick] using h
        · right; rw [hs]; exact h
    | tick currentTime clock =>
      have hlen : s.clients.length < 2 := by
        rcases hnow with h | h
        · simp [isTick] at h
        · exact h
      simp only [step, Option.map_eq_some'] at hstep
      obtain ⟨out, hout, rfl⟩ := hstep
      obtain ⟨s1, h1, hs1, hst1⟩ := tick_scores env hphys currentTime clock s out hout
      rw [clockCheck_idle env currentTime s (by omega)] at h1
      have h1' := Option.some.inj h1
      subst h1'
      refine ⟨?_, ?_⟩
      · rw [hsc, hs1]; rfl
      · intro _
        apply hst
        right
        rw [hst1]

/-! ## Lemmas on the drain loop and the lock-in -/

theorem drain_eq_drainChecked (regulateQueue : Bool) (q : List Input) : ∀ i,
    drain regulateQueue i q = (drainChecked regulateQueue i q).toOption := by
  induction q with
  | nil =>
    intro i
    rw [drain, drainChecked]
    split <;> rfl
  | cons x q ih =>
    intro i
    rw [drain, drainChecked]
    split
    · split
      · exact ih (i + 1)
      · rfl
    · rfl

theorem loopBound_true_le (size : Nat) (h : 5 ≤ size) : loopBound true size ≤ size - 5 := by
  have hq : QUEUE_TARGET = 5 := by decide
  simp only [loopBound, if_true, subSizeT, hq]
  omega

theorem drainChecked_true_ne_popEmpty (q : List Input) : ∀ i, 5 ≤ q.length →
    i + 4 ≤ q.length → drainChecked true i q ≠ .popEmpty := by
  induction q with
  | nil => intro i h5; simp at h5
  | cons x q ih =>
    intro i h5 hi
    simp only [List.length_cons] at h5 hi
    have hb := loopBound_true_le (q.length + 1) h5
    rw [drainChecked]
    split
    · split
      · exact ih (i + 1) (by omega) (by omega)
      · simp
    · simp

theorem drainChecked_false_zero (x : Input) (q : List Input) :
    drainChecked false 0 (x :: q) = .done q := by
  have h1 : drainChecked false 1 q = .done q := by
    cases q <;> simp [drainChecked, loopBound]
  simp [drainChecked, loopBound, INT_MAX, h1]

theorem regulateClient_cases (players : Players) (c : Client)
    (out : Client × Players × Option Record) (h : regulateClient players c = some out) :
    out.1.regulateQueue = updateFlag c.regulateQueue c.queue.length ∧
    ((consumes (updateFlag c.regulateQueue c.queue.length) c.queue.length = false ∧
        out.1.queue = c.queue ∧ out.2.1 = players ∧ out.2.2 = none) ∨
     (consumes (updateFlag c.regulateQueue c.queue.length) c.queue.length = true ∧
        drain (updateFlag c.regulateQueue c.queue.length) 0 c.queue = some out.1.queue ∧
        out.2.2.isSome = true)) := by
  refine ⟨regulateClient_flag players c out h, ?_⟩
  by_cases hc : consumes (updateFlag c.regulateQueue c.queue.length) c.queue.length = true
  · right
    refine ⟨hc, ?_⟩
    unfold regulateClient at h
    simp only [hc, if_true] at h
    cases hq : c.queue with
    | nil => rw [hq] at h; simp at h
    | cons x q =>
      rw [hq] at h
      simp only [Option.bind_eq_bind, Option.pure_def, Option.bind_eq_some] at h
      obtain ⟨p, -, q', hd, h⟩ := h
      simp only [Option.some.injEq] at h
      rw [← h]
      simp only [List.length_cons, Option.isSome_some, and_true]
      simpa using hd
  · have hc' : consumes (updateFlag c.regulateQueue c.queue.length) c.queue.length = false := by
      simpa using hc
    left
    rw [regulateClient_skip players c hc'] at h
    simp only [Option.some.injEq] at h
    rw [← h]
    exact ⟨hc', rfl, rfl, rfl⟩

/-- A force drain that returns has popped `k` inputs and stopped with at least
`i + k + 4` inputs left, `i + k` being the final value of the counter. -/
theorem drain_true_left (q : List Input) : ∀ (i : Nat) (q' : List Input),
    5 ≤ q.length → i + 4 ≤ q.length → drain true i q = some q' →
    ∃ k, q' = q.drop k ∧ k ≤ q.length ∧ i + k + 4 ≤ q.length - k := by
  induction q with
  | nil => intro i q' h5; simp at h5
  | cons x q ih =>
    intro i q' h5 hi hd
    simp only [List.length_cons] at h5 hi
    have hb := loopBound_true_le (q.length + 1) h5
    rw [drain] at hd
    split at hd
    · split at hd
      · obtain ⟨k, hk, hkl, hkb⟩ := ih (i + 1) q' (by omega) (by omega) hd
        refine ⟨k + 1, ?_, ?_, ?_⟩
        · rw [hk, List.drop_succ_cons]
        · simp only [List.length_cons]; omega
        · simp only [List.length_cons]; omega
      · simp at hd
    · refine ⟨0, ?_, ?_, ?_⟩
      · simpa using (Option.some.inj hd).symm
      · omega
      · simp only [List.length_cons]; omega

theorem LockedIn_tick (players : Players) (c : Client)
    (out : Client × Players × Option Record) (hl : LockedIn c)
    (h : regulateClient players c = some out) :
    LockedIn out.1 ∧ out.1.regulateQueue = true ∧
      (out.2.2.isSome = true → c.queue.length > 10) := by
  obtain ⟨hflag, hcases⟩ := regulateClient_cases players c out h
  have hu : updateFlag c.regulateQueue c.queue.length = true := by
    rcases hl with hgt | ⟨hf, hgt⟩
    · exact updateFlag_true_of_gt _ _ hgt
    · cases hfl : updateFlag c.regulateQueue c.queue.length with
      | true => rfl
      | false =>
        rw [updateFlag_false_iff, hf] at hfl
        rcases hfl with h5 | ⟨hff, -⟩
        · omega
        · exact absurd hff (by decide)
  rw [hu] at hflag hcases
  rcases hcases with ⟨hnc, hq, -, hr⟩ | ⟨hc, hd, -⟩
  · refine ⟨?_, hflag, ?_⟩
    · have h10 : ¬ c.queue.length > 10 := by
        unfold consumes QUEUE_MAX at hnc
        simpa using hnc
      rcases hl with hgt | ⟨-, hgt⟩
      · exact absurd hgt h10
      · right; rw [hq]; exact ⟨hflag, hgt⟩
    · intro hs; rw [hr] at hs; simp at hs
  · have hgt : c.queue.length > 10 := by
      unfold consumes QUEUE_MAX at hc
      simpa using hc
    obtain ⟨k, hk, hkl, hkb⟩ := drain_true_left c.queue 0 out.1.queue (by omega) (by omega) hd
    refine ⟨?_, hflag, fun _ => hgt⟩
    right
    refine ⟨hflag, ?_⟩
    rw [hk, List.length_drop]
    omega

theorem LockedIn_step (e : SessionEvent) (c c' : Client) (hl : LockedIn c)
    (h : sessionStep e c = some c') : LockedIn c' := by
  cases e with
  | ingest input now =>
    simp only [sessionStep, Option.some.injEq] at h
    rw [← h]
    unfold LockedIn at hl ⊢
    simp only [List.length_append, List.length_singleton]
    rcases hl with hgt | ⟨hf, hgt⟩
    · left; omega
    · right; exact ⟨hf, by omega⟩
  | regulatorTick players =>
    simp only [sessionStep, Option.map_eq_some'] at h
    obtain ⟨out, hout, rfl⟩ := h
    exact (LockedIn_tick players c out hl hout).1

theorem LockedIn_run (events : List SessionEvent) : ∀ (c c' : Client), LockedIn c →
    sessionRun events c = some c' → LockedIn c' := by
  induction events with
  | nil =>
    intro c c' hl h
    simp only [sessionRun, Option.some.injEq] at h
    rw [← h]; exact hl
  | cons e es ih =>
    intro c c' hl h
    simp only [sessionRun, Option.bind_eq_some] at h
    obtain ⟨mid, h1, h2⟩ := h
    exact ih mid c' (LockedIn_step e c mid hl h1) h2

theorem regulateClient_isSome (players : Players) (c : Client)
    (hid : c.playerId ≤ 1) (hlen : c.queue.length < 4294967296) :
    ∃ out, regulateClient players c = some out := by
  by_cases h : consumes (updateFlag c.regulateQueue c.queue.length) c.queue.length = true
  · have hpos := consumes_pos _ _ h
    obtain ⟨k, -, -, hd⟩ := drain_consume c.regulateQueue c.queue h hlen
    obtain ⟨input, rest, hq⟩ : ∃ input rest, c.queue = input :: rest := by
      cases hc : c.queue with
      | nil => rw [hc] at hpos; simp at hpos
      | cons x q => exact ⟨x, q, rfl⟩
    obtain ⟨players', hp⟩ := applyInput_isSome players c.playerId input hid
    exact ⟨_, regulateClient_consume players players' c input rest _ h hq hp hd⟩
  · have h' : consumes (updateFlag c.regulateQueue c.queue.length) c.queue.length = false := by
      simpa using h
    exact ⟨_, regulateClient_skip players c h'⟩

/-! ## Lemmas on the receive thread and the broadcast -/

theorem xor_one_of_le_one (n : Nat) (h : n ≤ 1) :
    n ^^^ 1 ≤ 1 ∧ n ^^^ 1 ≠ n ∧ (n ^^^ 1) % 256 = n ^^^ 1 := by
  have h01 : n = 0 ∨ n = 1 := by omega
  rcases h01 with rfl | rfl <;> decide

theorem statePacket_isSome (currentTime : Int) (s : Server) (r : Record)
    (h1 : InI64 (300 - currentTime)) (h2 : InI64 (300 - currentTime + s.startTime))
    (h3 : InI64 (5 - currentTime)) (h4 : InI64 (5 - currentTime + s.transitionTime))
    (hid : r.playerId ≤ 1) : ∃ p, statePacket currentTime s r = some p := by
  obtain ⟨other, ho⟩ := getPlayer_isSome s.players (r.playerId ^^^ 1)
    (xor_one_of_le_one r.playerId hid).1
  unfold statePacket
  have e1 : i64 (GAME_DURATION - currentTime) = some (300 - currentTime) := i64_of_InI64 _ h1
  have e3 : i64 (TRANSITION_DURATION - currentTime) = some (5 - currentTime) :=
    i64_of_InI64 _ h3
  simp only [Option.bind_eq_bind, Option.pure_def, e1, e3, Option.some_bind,
    i64_of_InI64 _ h2, i64_of_InI64 _ h4, ho]
  exact ⟨_, rfl⟩

theorem findClient_eq_none (clientAddress : SockAddr) (clients : List Client)
    (h : ∀ c ∈ clients, ¬ (c.address.s_addr = clientAddress.s_addr ∧
      c.address.sin_port = clientAddress.sin_port)) :
    findClient clientAddress clients = none := by
  induction clients with
  | nil => rfl
  | cons c cs ih =>
    have hc := h c (List.mem_cons_self _ _)
    have hs : sameEndpoint c clientAddress = false := by
      unfold sameEndpoint
      simpa using hc
    rw [findClient, if_neg (by simp [hs]), ih (fun x hx => h x (List.mem_cons_of_mem _ hx))]
    rfl

theorem findClient_first (clientAddress : SockAddr) (pre : List Client) (c : Client)
    (post : List Client)
    (hpre : ∀ x ∈ pre, ¬ (x.address.s_addr = clientAddress.s_addr ∧
      x.address.sin_port = clientAddress.sin_port))
    (hc : c.address.s_addr = clientAddress.s_addr ∧ c.address.sin_port = clientAddress.sin_port) :
    findClient clientAddress (pre ++ c :: post) = some pre.length := by
  induction pre with
  | nil =>
    have hs : sameEndpoint c clientAddress = true := by
      unfold sameEndpoint
      simpa using hc
    simp [findClient, hs]
  | cons x xs ih =>
    have hx := hpre x (List.mem_cons_self _ _)
    have hs : sameEndpoint x clientAddress = false := by
      unfold sameEndpoint
      simpa using hx
    rw [List.cons_append, findClient, if_neg (by simp [hs]),
      ih (fun y hy => hpre y (List.mem_cons_of_mem _ hy))]
    rfl

theorem updateClient_at (f : Client → Client) (pre : List Client) (c : Client)
    (post : List Client) :
    updateClient f pre.length (pre ++ c :: post) = pre ++ f c :: post := by
  induction pre with
  | nil => rfl
  | cons x xs ih => simp [updateClient, ih]

theorem encodeState_length (p : Packet) : (encodeState p).length = 102 := by
  simp [encodeState, store32, storeVector3, store64]

theorem encodeState_scores (p : Packet) :
    (encodeState p).drop 100 = [p.score0 % 256, p.score1 % 256] := by
  simp [encodeState, store32, storeVector3, store64]

theorem xor_one_ne (n : Nat) : n ^^^ 1 ≠ n := by
  intro h
  have h2 : n ^^^ (n ^^^ 1) = n ^^^ n := congrArg (fun m => n ^^^ m) h
  rw [← Nat.xor_assoc, Nat.xor_self, Nat.zero_xor] at h2
  exact absurd h2 (by decide)

theorem regulateClient_record (players : Players) (c : Client)
    (out : Client × Players × Option Record) (h : regulateClient players c = some out) :
    out.2.2 = frontRecord c := by
  unfold frontRecord
  by_cases hc : consumes (updateFlag c.regulateQueue c.queue.length) c.queue.length = true
  · rw [if_pos hc]
    unfold regulateClient at h
    simp only [hc, if_true] at h
    cases hq : c.queue with
    | nil => rw [hq] at h; simp at h
    | cons x q =>
      rw [hq] at h
      simp only [Option.bind_eq_bind, Option.pure_def, Option.bind_eq_some] at h
      obtain ⟨p, -, q', -, h⟩ := h
      simp only [Option.some.injEq] at h
      rw [← h]
      rfl
  · have hc' : consumes (updateFlag c.regulateQueue c.queue.length) c.queue.length = false := by
      simpa using hc
    rw [if_neg hc, regulateClient_skip players c hc'] at *
    simp only [Option.some.injEq] at h
    rw [← h]

theorem regulate_records (clients : List Client) : ∀ (players : Players)
    (out : List Client × Players × List Record), regulate players clients = some out →
    out.2.2 = clients.filterMap frontRecord := by
  induction clients with
  | nil =>
    intro players out h
    simp only [regulate, Option.some.injEq] at h
    rw [← h]
    rfl
  | cons c cs ih =>
    intro players out h
    obtain ⟨c', players', r, cs', players'', rs, h1, h2, rfl⟩ := regulate_cons players c cs out h
    have hr := regulateClient_record players c _ h1
    have hrs := ih players' _ h2
    simp only at hr hrs ⊢
    rw [List.filterMap_cons, ← hr, hrs]
    cases r <;> rfl

theorem broadcast_forall₂ (currentTime : Int) (s : Server) (records : List Record) :
    ∀ (packets : List Packet), broadcast currentTime s records = some packets →
    List.Forall₂ (fun r p => statePacket currentTime s r = some p) records packets := by
  induction records with
  | nil =>
    intro packets h
    simp only [broadcast, Option.some.injEq] at h
    rw [← h]
    exact List.Forall₂.nil
  | cons r rs ih =>
    intro packets h
    rw [broadcast] at h
    simp only [Option.bind_eq_bind, Option.pure_def, Option.bind_eq_some,
      Option.some.injEq] at h
    obtain ⟨q, hq, qs, hqs, rfl⟩ := h
    exact List.Forall₂.cons hq (ih qs hqs)

theorem statePacket_fields (currentTime : Int) (s : Server) (r : Record) (p : Packet)
    (h : statePacket currentTime s r = some p) :
    p.dest = r.address ∧ p.inputId = r.inputId ∧
    (∃ other, getPlayer s.players (r.playerId ^^^ 1) = some other ∧
      p.opponentCarState = other.carState ∧ p.opponentAction = other.action) ∧
    p.ball = s.ball.objectState ∧
    p.score0 = s.players.p0.score ∧ p.score1 = s.players.p1.score := by
  unfold statePacket at h
  simp only [Option.bind_eq_bind, Option.pure_def, Option.bind_eq_some, Option.some.injEq] at h
  obtain ⟨c0, -, cd, -, t0, -, tc, -, other, ho, hp⟩ := h
  rw [← hp]
  exact ⟨rfl, rfl, ⟨other, ho, rfl, rfl⟩, rfl, rfl, rfl⟩

theorem tick_idle_countdown (env : Env) (now : Int) (clock : Nat → Int) (s : Server)
    (out : Server × List Packet) (hlen : s.clients.length < 2)
    (h : tick env now clock s = some out) :
    (∃ (s3 : Server) (records : List Record),
      broadcast now s3 records = some out.2 ∧ s3.startTime = 0) ∧
    ∀ p ∈ out.2, p.countdown = max 0 (300 - now) := by
  obtain ⟨s1, kept, s3, records, h1, hk, h2, h3, -⟩ := tick_eq_some env now clock s out h
  rw [clockCheck_idle env now s (by omega)] at h1
  have h1' := Option.some.inj h1
  obtain ⟨-, h3eq⟩ := regulatePhase_eq_some _ s3 records h2
  have hst : s3.startTime = 0 := by rw [h3eq, ← h1']
  refine ⟨⟨s3, records, h3, hst⟩, ?_⟩
  intro p hp
  obtain ⟨r, -, hr⟩ := broadcast_mem now s3 records out.2 h3 p hp
  rw [(statePacket_countdown now s3 r p hr).1, hst, add_zero]

theorem regulateClient_frame (players : Players) (c : Client)
    (out : Client × Players × Option Record) (h : regulateClient players c = some out) :
    (consumes (updateFlag c.regulateQueue c.queue.length) c.queue.length = false →
      out.2.1 = players ∧
      out.1 = { c with regulateQueue := updateFlag c.regulateQueue c.queue.length }) ∧
    (∀ id, id ≠ c.playerId → getPlayer out.2.1 id = getPlayer players id) := by
  by_cases hc : consumes (updateFlag c.regulateQueue c.queue.length) c.queue.length = true
  · refine ⟨fun hf => absurd hc (by rw [hf]; decide), ?_⟩
    unfold regulateClient at h
    simp only [hc, if_true] at h
    cases hq : c.queue with
    | nil => rw [hq] at h; simp at h
    | cons x q =>
      rw [hq] at h
      simp only [Option.bind_eq_bind, Option.pure_def, Option.bind_eq_some] at h
      obtain ⟨p, hp, q', -, h⟩ := h
      simp only [Option.some.injEq] at h
      rw [← h]
      intro id hne
      exact getPlayer_applyInput_other players p c.playerId id x hp hne
  · have hc' : consumes (updateFlag c.regulateQueue c.queue.length) c.queue.length = false := by
      simpa using hc
    rw [regulateClient_skip players c hc'] at h
    simp only [Option.some.injEq] at h
    rw [← h]
    exact ⟨fun _ => ⟨rfl, rfl⟩, fun _ _ => rfl⟩

theorem regulate_frame (clients : List Client) : ∀ (players : Players)
    (out : List Client × Players × List Record) (id : Nat),
    regulate players clients = some out → (∀ c ∈ clients, c.playerId ≠ id) →
    getPlayer out.2.1 id = getPlayer players id := by
  induction clients with
  | nil =>
    intro players out id h _
    simp only [regulate, Option.some.injEq] at h
    rw [← h]
  | cons c cs ih =>
    intro players out id h hne
    obtain ⟨c', players', r, cs', players'', rs, h1, h2, rfl⟩ := regulate_cons players c cs out h
    have ha := (regulateClient_frame players c _ h1).2 id
      (fun he => hne c (List.mem_cons_self _ _) he.symm)
    have hb := ih players' _ id h2 (fun x hx => hne x (List.mem_cons_of_mem _ hx))
    simp only at ha hb ⊢
    rw [hb, ha]

theorem regulate_idle (clients : List Client) : ∀ (players : Players)
    (out : List Client × Players × List Record) (i : Nat) (c : Client),
    (clients.map (fun c => c.playerId)).Nodup →
    regulate players clients = some out → clients[i]? = some c →
    consumes (updateFlag c.regulateQueue c.queue.length) c.queue.length = false →
    out.1[i]? = some { c with regulateQueue := updateFlag c.regulateQueue c.queue.length } ∧
      getPlayer out.2.1 c.playerId = getPlayer players c.playerId := by
  induction clients with
  | nil => intro players out i c _ _ hc; simp at hc
  | cons c0 cs ih =>
    intro players out i c hnd h hc hidle
    obtain ⟨c', players', r, cs', players'', rs, h1, h2, rfl⟩ := regulate_cons players c0 cs out h
    simp only [List.map_cons, List.nodup_cons, List.mem_map, not_exists, not_and] at hnd
    obtain ⟨hnot, hnd'⟩ := hnd
    cases i with
    | zero =>
      simp only [List.getElem?_cons_zero, Option.some.injEq] at hc
      subst hc
      obtain ⟨hp, hc'⟩ := (regulateClient_frame players c0 _ h1).1 hidle
      simp only at hp hc'
      refine ⟨by simp only [List.getElem?_cons_zero]; rw [hc'], ?_⟩
      have := regulate_frame cs players' _ c0.playerId h2 (fun x hx => hnot x hx)
      simp only at this ⊢
      rw [this, hp]
    | succ i =>
      simp only [List.getElem?_cons_succ] at hc ⊢
      obtain ⟨hq, hg⟩ := ih players' _ i c hnd' h2 hc hidle
      simp only at hq hg
      refine ⟨hq, ?_⟩
      have hmem : c ∈ cs := List.getElem?_mem hc
      have hne : c.playerId ≠ c0.playerId := hnot c hmem
      rw [hg]
      exact (regulateClient_frame players c0 _ h1).2 c.playerId hne

theorem consumes_false_iff (flag : Bool) (q : List Input) :
    consumes (updateFlag flag q.length) q.length = false ↔
      (q = [] ∨ (updateFlag flag q.length = true ∧ q.length ≤ 10)) := by
  constructor
  · intro h
    right
    unfold consumes QUEUE_MAX at h
    simp only [Bool.or_eq_false_iff, Bool.not_eq_false', decide_eq_false_iff_not] at h
    exact ⟨h.1, by omega⟩
  · intro h
    rcases h with h | ⟨hu, hle⟩
    · subst h
      cases flag <;> decide
    · rw [hu]
      unfold consumes QUEUE_MAX
      simp only [Bool.not_true, Bool.false_or, decide_eq_false_iff_not]
      omega

/-- Registries that satisfy the invariant have pairwise different player ids. -/
theorem RegistryInv_nodup (clients : List Client) (h : RegistryInv clients) :
    (clients.map (fun c => c.playerId)).Nodup := by
  unfold RegistryInv at h
  simp only [List.mem_cons, List.mem_singleton, List.not_mem_nil, or_false] at h
  rcases h with h | h | h | h | h <;> rw [h] <;> decide

/-! ## The claims -/

/-- C1: in every server state reached from a state with an empty registry by any
sequence of datagram handlings and ticks, and in every registry reached from there by
any further sequence of datagram handlings, reaps and regulator loops, the registry
holds at most two sessions, every `playerId` is 0 or 1, and two sessions have different
ids, so exactly 0 and 1. -/
theorem C1_registry_invariant (env : Env) (events : List Event) (s0 s : Server)
    (hempty : s0.clients = []) (h : run env events s0 = some s) :
    s.clients.length ≤ 2 ∧
    (∀ c ∈ s.clients, c.playerId = 0 ∨ c.playerId = 1) ∧
    (∀ a b, s.clients = [a, b] → a.playerId ≠ b.playerId ∧
      ((a.playerId = 0 ∧ b.playerId = 1) ∨ (a.playerId = 1 ∧ b.playerId = 0))) ∧
    (∀ (steps : List RegistryEvent) (registry : List Client),
      registryRun steps s.clients = some registry →
      registry.length ≤ 2 ∧
      (∀ c ∈ registry, c.playerId = 0 ∨ c.playerId = 1) ∧
      (∀ a b, registry = [a, b] → a.playerId ≠ b.playerId ∧
        ((a.playerId = 0 ∧ b.playerId = 1) ∨ (a.playerId = 1 ∧ b.playerId = 0)))) := by
  have hinv : RegistryInv s.clients :=
    RegistryInv_serverRun env events s0 s (hempty ▸ RegistryInv_nil) h
  obtain ⟨h1, h2, h3⟩ := RegistryInv_spec s.clients hinv
  refine ⟨h1, h2, h3, ?_⟩
  intro steps registry hr
  exact RegistryInv_spec registry (RegistryInv_run steps s.clients registry hinv hr)

/-- C1 on a run with an eviction followed by a new admission: the registry ends with
player 1 (the survivor) followed by player 0 (the newcomer). -/
theorem C1_registry_invariant_witness :
    (initialServer exampleEnv).clients = [] ∧
    run exampleEnv exampleChurn (initialServer exampleEnv) = some exampleChurnEnd ∧
    (exampleChurnEnd.clients.length ≤ 2 ∧
    (∀ c ∈ exampleChurnEnd.clients, c.playerId = 0 ∨ c.playerId = 1) ∧
    (∀ a b, exampleChurnEnd.clients = [a, b] → a.playerId ≠ b.playerId ∧
      ((a.playerId = 0 ∧ b.playerId = 1) ∨ (a.playerId = 1 ∧ b.playerId = 0))) ∧
    (∀ (steps : List RegistryEvent) (registry : List Client),
      registryRun steps exampleChurnEnd.clients = some registry →
      registry.length ≤ 2 ∧
      (∀ c ∈ registry, c.playerId = 0 ∨ c.playerId = 1) ∧
      (∀ a b, registry = [a, b] → a.playerId ≠ b.playerId ∧
        ((a.playerId = 0 ∧ b.playerId = 1) ∨ (a.playerId = 1 ∧ b.playerId = 0))))) :=
  ⟨rfl, by decide,
    C1_registry_invariant exampleEnv exampleChurn (initialServer exampleEnv) exampleChurnEnd
      rfl (by decide)⟩

/-- C2, evaluated on a regulating session with 11 queued inputs: the tick consumes the
front input, but the drain loop stops after 3 pops and leaves 8 inputs in the queue, not
the 11 - 5 = 6 pops and depth 5 of the claim. -/
theorem C2_regulated_drain_misses_target :
    (exampleSession 7000 0 true 11 0).regulateQueue = true ∧
    (exampleSession 7000 0 true 11 0).queue.length = 11 ∧
    regulateClient examplePlayers (exampleSession 7000 0 true 11 0)
      = some ({ exampleSession 7000 0 true 11 0 with
                  queue := (exampleQueue 11).drop 3 },
              { examplePlayers with
                  p0 := { examplePlayers.p0 with action := (exampleInput 0).player.action,
                                                 carState := (exampleInput 0).player.carState } },
              some { address := (exampleSession 7000 0 true 11 0).address, playerId := 0,
                     inputId := 0 }) ∧
    ((exampleQueue 11).drop 3).length = 8 := by
  decide

/-- C3: the regulator of one session (player id 0 or 1, queue length below 2^32)
always returns; it records an entry for the broadcast exactly when the updated flag is
false or the depth exceeds `QUEUE_MAX`, which is exactly when the depth exceeds 10, or is
5, or the old flag was false and the depth is between 1 and 10. When it records, the
entry carries the id of the front input, the front input's action and car state are
stored in `players[playerId]`, and at least one input is popped; when it does not,
players and queue are unchanged. -/
theorem C3_consumption_decision (players : Players) (c : Client)
    (hid : c.playerId ≤ 1) (hlen : c.queue.length < 4294967296) :
    ∃ c' players' r, regulateClient players c = some (c', players', r) ∧
      c'.regulateQueue = updateFlag c.regulateQueue c.queue.length ∧
      (r.isSome = true ↔ (c'.regulateQueue = false ∨ c.queue.length > QUEUE_MAX)) ∧
      (r.isSome = true ↔ (c.queue.length > 10 ∨ c.queue.length = 5 ∨
          (c.regulateQueue = false ∧ 1 ≤ c.queue.length ∧ c.queue.length ≤ 10))) ∧
      (r.isSome = true → ∃ input rest k, c.queue = input :: rest ∧
          r = some { address := c.address, playerId := c.playerId, inputId := input.id } ∧
          applyInput players c.playerId input = some players' ∧
          (getPlayer players' c.playerId).map (fun p => (p.action, p.carState))
            = some (input.player.action, input.player.carState) ∧
          0 < k ∧ k ≤ c.queue.length ∧ c'.queue = c.queue.drop k) ∧
      (r = none → players' = players ∧ c'.queue = c.queue) := by
  by_cases h : consumes (updateFlag c.regulateQueue c.queue.length) c.queue.length = true
  · have hpos := consumes_pos _ _ h
    obtain ⟨k, hk0, hk1, hd⟩ := drain_consume c.regulateQueue c.queue h hlen
    obtain ⟨input, rest, hq⟩ : ∃ input rest, c.queue = input :: rest := by
      cases hc : c.queue with
      | nil => rw [hc] at hpos; simp at hpos
      | cons x q => exact ⟨x, q, rfl⟩
    obtain ⟨players', hp⟩ := applyInput_isSome players c.playerId input hid
    refine ⟨_, _, _, regulateClient_consume players players' c input rest _ h hq hp hd,
      rfl, ?_, ?_, ?_, ?_⟩
    · simp only [Option.isSome_some, true_iff]
      unfold consumes at h
      simpa using h
    · simp only [Option.isSome_some, true_iff]
      exact (consumes_iff _ _).1 h
    · intro _
      refine ⟨input, rest, k, hq, rfl, hp, ?_, hk0, hk1, rfl⟩
      rw [← getPlayer_applyInput players players' c.playerId input hp]
      rcases getPlayer_isSome players c.playerId hid with ⟨p, hp'⟩
      rw [hp']
      rfl
    · intro hr; simp at hr
  · have h' : consumes (updateFlag c.regulateQueue c.queue.length) c.queue.length = false := by
      simpa using h
    refine ⟨_, _, _, regulateClient_skip players c h', rfl, ?_, ?_, ?_, ?_⟩
    · simp only [Option.isSome_none, Bool.false_eq_true, false_iff]
      unfold consumes at h'
      simpa using h'
    · simp only [Option.isSome_none, Bool.false_eq_true, false_iff]
      rw [← consumes_iff]; exact h
    · intro hr; simp at hr
    · intro _; exact ⟨rfl, rfl⟩

/-- C3 at a session of player 0 with flag false and 5 queued inputs. -/
theorem C3_consumption_decision_witness :
    (exampleSession 7000 0 false 5 0).playerId ≤ 1 ∧
    (exampleSession 7000 0 false 5 0).queue.length < 4294967296 ∧
    ∃ c' players' r,
      regulateClient examplePlayers (exampleSession 7000 0 false 5 0)
        = some (c', players', r) ∧
      c'.regulateQueue
        = updateFlag (exampleSession 7000 0 false 5 0).regulateQueue
            (exampleSession 7000 0 false 5 0).queue.length ∧
      (r.isSome = true ↔
        (c'.regulateQueue = false ∨ (exampleSession 7000 0 false 5 0).queue.length > QUEUE_MAX)) ∧
      (r.isSome = true ↔ ((exampleSession 7000 0 false 5 0).queue.length > 10 ∨
          (exampleSession 7000 0 false 5 0).queue.length = 5 ∨
          ((exampleSession 7000 0 false 5 0).regulateQueue = false ∧
            1 ≤ (exampleSession 7000 0 false 5 0).queue.length ∧
            (exampleSession 7000 0 false 5 0).queue.length ≤ 10))) ∧
      (r.isSome = true → ∃ input rest k,
          (exampleSession 7000 0 false 5 0).queue = input :: rest ∧
          r = some { address := (exampleSession 7000 0 false 5 0).address,
                     playerId := (exampleSession 7000 0 false 5 0).playerId,
                     inputId := input.id } ∧
          applyInput examplePlayers (exampleSession 7000 0 false 5 0).playerId input
            = some players' ∧
          (getPlayer players' (exampleSession 7000 0 false 5 0).playerId).map
              (fun p => (p.action, p.carState))
            = some (input.player.action, input.player.carState) ∧
          0 < k ∧ k ≤ (exampleSession 7000 0 false 5 0).queue.length ∧
          c'.queue = (exampleSession 7000 0 false 5 0).queue.drop k) ∧
      (r = none → players' = examplePlayers ∧
          c'.queue = (exampleSession 7000 0 false 5 0).queue) :=
  ⟨by decide, by decide,
    C3_consumption_decision examplePlayers (exampleSession 7000 0 false 5 0)
      (by decide) (by decide)⟩

/-- C4: the flag after the update is true when the depth is below 1 or above 10, false
when the depth is 5, and the old flag otherwise; this is the flag the regulator stores in
the session; and along any sequence of depths the flag goes from true to false only at a
depth of exactly 5 and from false to true only at a depth outside [1, 10]. -/
theorem C4_hysteresis (flag : Bool) (d : Nat) :
    ((d < 1 ∨ d > 10) → updateFlag flag d = true) ∧
    (d = 5 → updateFlag flag d = false) ∧
    ((1 ≤ d ∧ d ≤ 10 ∧ d ≠ 5) → updateFlag flag d = flag) ∧
    (∀ (players : Players) (c : Client) (out : Client × Players × Option Record),
        regulateClient players c = some out →
        out.1.regulateQueue = updateFlag c.regulateQueue c.queue.length) ∧
    (∀ (ds : List Nat) (k dk : Nat) (f f' : Bool),
        ds[k]? = some dk → (flagsAlong flag ds)[k]? = some f →
        (flagsAlong flag ds)[k + 1]? = some f' →
        f' = updateFlag f dk ∧ (f = true → f' = false → dk = 5) ∧
          (f = false → f' = true → (dk < 1 ∨ dk > 10))) := by
  refine ⟨?_, ?_, ?_, regulateClient_flag, ?_⟩
  · intro h
    unfold updateFlag QUEUE_MIN QUEUE_MAX
    rw [if_pos h]
  · intro h
    exact (updateFlag_false_iff flag d).2 (Or.inl h)
  · intro h
    unfold updateFlag QUEUE_MIN QUEUE_MAX
    have h1 : ¬ (d < 1 ∨ d > 10) := by omega
    have h5 : ¬ d = (1 + 10) / 2 := by omega
    simp only [h1, h5, if_false]
  · intro ds k dk f f' hd hf hf'
    have hstep := flagsAlong_step ds flag k dk f f' hd hf hf'
    refine ⟨hstep, ?_, ?_⟩
    · intro ht hfalse
      rw [hstep, updateFlag_false_iff, ht] at hfalse
      simpa using hfalse
    · intro hff htrue
      rw [hstep, hff] at htrue
      by_contra hin
      have hnot : updateFlag false dk = false := 
        (updateFlag_false_iff false dk).2 (Or.inr ⟨rfl, by omega, by omega⟩)
      rw [hnot] at htrue
      exact Bool.false_ne_true htrue

/-- C5 as stated fails: for a regulating session with 8 queued inputs the regulator
records nothing, applies nothing and pops nothing; no result with a consumed input and
depth 8 - 3 = 5 exists. -/
theorem C5_counterexample :
    (exampleSession 7000 0 true 8 0).regulateQueue = true ∧
    (exampleSession 7000 0 true 8 0).queue.length = 8 ∧
    regulateClient examplePlayers (exampleSession 7000 0 true 8 0)
      = some (exampleSession 7000 0 true 8 0, examplePlayers, none) ∧
    ¬ ∃ c' players' r, regulateClient examplePlayers (exampleSession 7000 0 true 8 0)
        = some (c', players', some r) ∧ c'.queue.length = 8 - 3 := by
  refine ⟨by decide, by decide, by decide, ?_⟩
  rintro ⟨c', players', r, h, -⟩
  have h2 : regulateClient examplePlayers (exampleSession 7000 0 true 8 0)
      = some (exampleSession 7000 0 true 8 0, examplePlayers, none) := by decide
  rw [h2] at h
  simp at h

/-- C5, amended: for a session whose flag is true and whose depth is 8, the regulator
does not consume: the flag stays true, the players are untouched, nothing is recorded for
the broadcast and all 8 inputs stay in the queue. -/
theorem C5_regulating_depth_8_waits (players : Players) (c : Client)
    (hflag : c.regulateQueue = true) (hdepth : c.queue.length = 8) :
    regulateClient players c = some (c, players, none) := by
  have hu : updateFlag c.regulateQueue c.queue.length = true := by
    rw [hflag, hdepth]; decide
  have hc : consumes (updateFlag c.regulateQueue c.queue.length) c.queue.length = false := by
    rw [hu, hdepth]; decide
  rw [regulateClient_skip players c hc, hu, ← hflag]

/-- C5 (amended) at a session of player 1. -/
theorem C5_regulating_depth_8_waits_witness :
    (exampleSession 7000 1 true 8 0).regulateQueue = true ∧
    (exampleSession 7000 1 true 8 0).queue.length = 8 ∧
    regulateClient examplePlayers (exampleSession 7000 1 true 8 0)
      = some (exampleSession 7000 1 true 8 0, examplePlayers, none) :=
  ⟨by decide, by decide,
    C5_regulating_depth_8_waits examplePlayers (exampleSession 7000 1 true 8 0)
      (by decide) (by decide)⟩

/-- C6: when the updated flag is false (player id 0 or 1), the regulator consumes: the
front input's action and car state are stored in `players[playerId]`, the other player
is untouched, the entry for the broadcast carries the front input's id, and exactly the
front input is popped, the rest of the queue keeping its order. -/
theorem C6_steady_state_drain (players : Players) (c : Client)
    (hid : c.playerId ≤ 1)
    (hflag : updateFlag c.regulateQueue c.queue.length = false) :
    ∃ input rest players',
      c.queue = input :: rest ∧
      regulateClient players c
        = some ({ c with regulateQueue := false, queue := rest }, players',
                some { address := c.address, playerId := c.playerId, inputId := input.id }) ∧
      (getPlayer players c.playerId).map
          (fun p => { p with action := input.player.action, carState := input.player.carState })
        = getPlayer players' c.playerId ∧
      (∀ other, other ≠ c.playerId → getPlayer players' other = getPlayer players other) ∧
      rest.length + 1 = c.queue.length ∧ rest = c.queue.drop 1 := by
  have hc : consumes (updateFlag c.regulateQueue c.queue.length) c.queue.length = true := by
    rw [hflag]; rfl
  have hpos := consumes_pos _ _ hc
  obtain ⟨input, rest, hq⟩ : ∃ input rest, c.queue = input :: rest := by
    cases hc : c.queue with
    | nil => rw [hc] at hpos; simp at hpos
    | cons x q => exact ⟨x, q, rfl⟩
  obtain ⟨players', hp⟩ := applyInput_isSome players c.playerId input hid
  have hd : drain (updateFlag c.regulateQueue c.queue.length) 0 c.queue = some rest := by
    rw [hflag, hq, drain_false_zero]
  refine ⟨input, rest, players', hq, ?_, getPlayer_applyInput players players' c.playerId input hp,
    fun other hne => getPlayer_applyInput_other players players' c.playerId other input hp hne,
    by rw [hq]; rfl, by rw [hq]; rfl⟩
  rw [regulateClient_consume players players' c input rest rest hc hq hp hd, hflag]

/-- C6 at a session of player 1 with flag false and depth 5: depth 4 afterwards. -/
theorem C6_steady_state_drain_witness :
    (exampleSession 7000 1 false 5 0).playerId ≤ 1 ∧
    updateFlag (exampleSession 7000 1 false 5 0).regulateQueue
      (exampleSession 7000 1 false 5 0).queue.length = false ∧
    ∃ input rest players',
      (exampleSession 7000 1 false 5 0).queue = input :: rest ∧
      regulateClient examplePlayers (exampleSession 7000 1 false 5 0)
        = some ({ exampleSession 7000 1 false 5 0 with regulateQueue := false, queue := rest },
                players',
                some { address := (exampleSession 7000 1 false 5 0).address,
                       playerId := (exampleSession 7000 1 false 5 0).playerId,
                       inputId := input.id }) ∧
      (getPlayer examplePlayers (exampleSession 7000 1 false 5 0).playerId).map
          (fun p => { p with action := input.player.action, carState := input.player.carState })
        = getPlayer players' (exampleSession 7000 1 false 5 0).playerId ∧
      (∀ other, other ≠ (exampleSession 7000 1 false 5 0).playerId →
          getPlayer players' other = getPlayer examplePlayers other) ∧
      rest.length + 1 = (exampleSession 7000 1 false 5 0).queue.length ∧
      rest = (exampleSession 7000 1 false 5 0).queue.drop 1 :=
  ⟨by decide, by decide,
    C6_steady_state_drain examplePlayers (exampleSession 7000 1 false 5 0)
      (by decide) (by decide)⟩

/-- C7 as stated fails: a session idle for 5.5 s (more than 5 s) is kept by the reap. -/
theorem C7_counterexample :
    (5500000000 : Int) - (exampleSession 7000 0 true 3 0).lastUpdate
        > 5 * STEADY_TICKS_PER_SECOND ∧
    reap (fun _ => 5500000000) [exampleSession 7000 0 true 3 0]
      = some [exampleSession 7000 0 true 3 0] := by
  decide

/-- C7, amended: when no subtraction `now - lastUpdate` of the reap overflows `int64_t`,
the reap returns and keeps exactly the sessions for which fewer than 6 whole seconds have
passed at the clock reading taken for them, in their order and unchanged; what it keeps
is always a sublist of the registry; the predicate removes a session exactly when at
least 6 s have passed since `lastUpdate` (the elapsed time is truncated to whole seconds
before the comparison with 5), whatever its queue holds; so sessions idle for 4.9 s and
for 5.5 s are kept and a session idle for 6 s is removed. -/
theorem C7_reap_threshold (clock : Nat → Int) (clients : List Client)
    (hrange : ∀ jc ∈ clients.enum, InI64 (clock jc.1 - jc.2.lastUpdate)) :
    reap clock clients
      = some ((clients.enum.filter
          (fun jc => !decide (6 * STEADY_TICKS_PER_SECOND ≤ clock jc.1 - jc.2.lastUpdate))).map
          Prod.snd) ∧
    (∀ kept, reap clock clients = some kept → List.Sublist kept clients) ∧
    (∀ (now : Int) (c : Client), InI64 (now - c.lastUpdate) →
      stale now c = some (decide (6 * STEADY_TICKS_PER_SECOND ≤ now - c.lastUpdate))) ∧
    (∀ (now : Int) (c : Client) (queue : List Input),
      stale now { c with queue := queue } = stale now c) ∧
    (∀ c : Client, stale (c.lastUpdate + 5500000000) c = some false ∧
      stale (c.lastUpdate + 4900000000) c = some false ∧
      stale (c.lastUpdate + 6000000000) c = some true) := by
  refine ⟨reapFrom_eq_filter clock clients 0 hrange,
    fun kept hk => reapFrom_sublist clock clients 0 kept hk, stale_eq, fun _ _ _ => rfl, ?_⟩
  intro c
  have h1 : c.lastUpdate + 5500000000 - c.lastUpdate = 5500000000 := by omega
  have h2 : c.lastUpdate + 4900000000 - c.lastUpdate = 4900000000 := by omega
  have h3 : c.lastUpdate + 6000000000 - c.lastUpdate = 6000000000 := by omega
  refine ⟨?_, ?_, ?_⟩
  · rw [stale_eq _ c (by rw [h1]; decide), h1]; rfl
  · rw [stale_eq _ c (by rw [h2]; decide), h2]; rfl
  · rw [stale_eq _ c (by rw [h3]; decide), h3]; rfl

/-- C7 (amended) on the two sessions of the running match, idle for 10 s and for 1 s at
their clock readings: the first is removed, the second is kept. -/
theorem C7_reap_threshold_witness :
    (∀ jc ∈ exampleMatch.clients.enum,
      InI64 ((fun _ => 10000000000 : Nat → Int) jc.1 - jc.2.lastUpdate)) ∧
    (reap (fun _ => 10000000000) exampleMatch.clients
      = some ((exampleMatch.clients.enum.filter
          (fun jc => !decide (6 * STEADY_TICKS_PER_SECOND
            ≤ (fun _ => 10000000000 : Nat → Int) jc.1 - jc.2.lastUpdate))).map
          Prod.snd) ∧
    (∀ kept, reap (fun _ => 10000000000) exampleMatch.clients = some kept →
      List.Sublist kept exampleMatch.clients) ∧
    (∀ (now : Int) (c : Client), InI64 (now - c.lastUpdate) →
      stale now c = some (decide (6 * STEADY_TICKS_PER_SECOND ≤ now - c.lastUpdate))) ∧
    (∀ (now : Int) (c : Client) (queue : List Input),
      stale now { c with queue := queue } = stale now c) ∧
    (∀ c : Client, stale (c.lastUpdate + 5500000000) c = some false ∧
      stale (c.lastUpdate + 4900000000) c = some false ∧
      stale (c.lastUpdate + 6000000000) c = some true)) ∧
    reap (fun _ => 10000000000) exampleMatch.clients
      = some [exampleSession 7001 1 false 5 9000000000] :=
  ⟨by decide, C7_reap_threshold (fun _ => 10000000000) exampleMatch.clients (by decide),
    by decide⟩

/-- C8: with exactly two sessions (and no `int64_t` overflow in `now - startTime` and
`now + 5`) the clock check returns; if `now - startTime > 300` it sets
`startTime = now + 5`, `transitionTime = now`, both scores to 0 and the ball to
`initialBall`, and changes nothing else; if `now - startTime ≤ 300` (so also at exactly
300) it changes nothing. -/
theorem C8_round_reset (env : Env) (now : Int) (s : Server)
    (h2 : s.clients.length = 2) (hsub : InI64 (now - s.startTime)) (hadd : InI64 (now + 5)) :
    ∃ s', clockCheck env now s = some s' ∧
      (now - s.startTime > 300 →
        s' = { s with startTime := now + 5, transitionTime := now, ball := env.initialBall,
                      players := { p0 := { s.players.p0 with score := 0 },
                                   p1 := { s.players.p1 with score := 0 } } } ∧
        s'.startTime = now + 5 ∧ s'.transitionTime = now ∧
        s'.players.p0.score = 0 ∧ s'.players.p1.score = 0 ∧ s'.ball = env.initialBall) ∧
      (now - s.startTime ≤ 300 → s' = s) := by
  by_cases hgt : now - s.startTime > 300
  · refine ⟨_, clockCheck_reset env now s h2 hsub hadd hgt, ?_, ?_⟩
    · intro _; exact ⟨rfl, rfl, rfl, rfl, rfl, rfl⟩
    · intro hle; omega
  · refine ⟨_, clockCheck_keep env now s h2 hsub (by omega), ?_, ?_⟩
    · intro h; exact absurd h hgt
    · intro _; rfl

/-- C8 on the running match with scores 3 and 1, 301 s after `startTime`. -/
theorem C8_round_reset_witness :
    exampleMatch.clients.length = 2 ∧
    InI64 (1700000301 - exampleMatch.startTime) ∧ InI64 (1700000301 + 5) ∧
    ∃ s', clockCheck exampleEnv 1700000301 exampleMatch = some s' ∧
      (1700000301 - exampleMatch.startTime > 300 →
        s' = { exampleMatch with
                 startTime := 1700000301 + 5, transitionTime := 1700000301,
                 ball := exampleEnv.initialBall,
                 players := { p0 := { exampleMatch.players.p0 with score := 0 },
                              p1 := { exampleMatch.players.p1 with score := 0 } } } ∧
        s'.startTime = 1700000301 + 5 ∧ s'.transitionTime = 1700000301 ∧
        s'.players.p0.score = 0 ∧ s'.players.p1.score = 0 ∧
        s'.ball = exampleEnv.initialBall) ∧
      (1700000301 - exampleMatch.startTime ≤ 300 → s' = exampleMatch) :=
  ⟨by decide, by decide, by decide,
    C8_round_reset exampleEnv 1700000301 exampleMatch (by decide) (by decide) (by decide)⟩

/-- C9 as stated fails: in a tick at 1700000100 of a running match (`startTime`
1700000000) one session is reaped and the physics step scores, so `startTime` becomes
1700000005; the next tick, in the same second, sees one session, forces `startTime` to 0
and broadcasts the countdown 0, not max(0, 300 - 1700000100 + 1700000000 + 5) = 205. -/
theorem C9_counterexample :
    exampleMatch.players.p0.score = 3 ∧ exampleMatch.startTime = 1700000000 ∧
    (clockCheck scoringEnv 1700000100 exampleMatch).map (fun s => s.startTime)
      = some 1700000000 ∧
    (tick scoringEnv 1700000100 (fun _ => 10000000000) exampleMatch).map
        (fun out => (out.1.players.p0.score, out.1.startTime, out.1.transitionTime,
          out.1.clients.length))
      = some (4, 1700000000 + 5, 1700000100, 1) ∧
    ((tick scoringEnv 1700000100 (fun _ => 10000000000) exampleMatch).bind
        (fun out => tick scoringEnv 1700000100 (fun _ => 10016666667) out.1)).map
        (fun out => out.2.map (fun p => p.countdown))
      = some [0] ∧
    max 0 (300 - 1700000100 + 1700000000 + 5) = (205 : Int) := by
  decide

/-- C9, amended: the physics phase of a tick at time `now` returns (no `int64_t` overflow
in `startTime + 5`); if it changes a score, `startTime` is 5 larger than before the
physics step and `transitionTime = now` at the end of the tick, and every countdown
broadcast by the next tick equals max(0, 300 - now' + old startTime + 5) provided that
tick starts with two sessions and its clock check does not reset the round
(`now' - startTime ≤ 300`); if it changes no score, both timers are unchanged. The
physics phase is the last phase of a tick. -/
theorem C9_score_event (env : Env) (now : Int) (s : Server)
    (hadd : InI64 (s.startTime + 5)) :
    ∃ s', scorePhase env now s = some s' ∧
      s'.players = (env.physicsStep s.ball s.players).2 ∧
      ((s'.players.p0.score ≠ s.players.p0.score ∨ s'.players.p1.score ≠ s.players.p1.score) →
        s'.startTime = s.startTime + 5 ∧ s'.transitionTime = now ∧
        ∀ (next : Server) (now' : Int) (clock : Nat → Int) (out : Server × List Packet),
          next.startTime = s'.startTime → next.clients.length = 2 →
          now' - next.startTime ≤ 300 → tick env now' clock next = some out →
          ∀ p ∈ out.2, p.countdown = max 0 (300 - now' + s.startTime + 5)) ∧
      ((s'.players.p0.score = s.players.p0.score ∧ s'.players.p1.score = s.players.p1.score) →
        s'.startTime = s.startTime ∧ s'.transitionTime = s.transitionTime) ∧
      (∀ (clock : Nat → Int) (s0 : Server) (out : Server × List Packet),
        tick env now clock s0 = some out →
        ∃ s3, scorePhase env now s3 = some out.1) := by
  obtain ⟨s', hs'⟩ := scorePhase_isSome env now s hadd
  obtain ⟨hp, -, -, hchg, hsame⟩ := scorePhase_spec env now s s' hs'
  refine ⟨s', hs', hp, ?_, hsame, ?_⟩
  · intro hdiff
    obtain ⟨hst, htt⟩ := hchg hdiff
    refine ⟨hst, htt, ?_⟩
    intro next now' clock out hnext h2 hle htick p hmem
    obtain ⟨s1, h1, hall⟩ := tick_countdown env now' clock next out htick
    have hkeep := (clockCheck_two env now' next s1 h2 h1).1 hle
    rw [(hall p hmem).1, hkeep, hnext, hst]
    congr 1
    omega
  · intro clock s0 out htick
    obtain ⟨s1, kept, s3, records, -, -, -, -, h4⟩ := tick_eq_some env now clock s0 out htick
    exact ⟨s3, h4⟩

/-- C9 (amended) on the running match with a physics step that scores. -/
theorem C9_score_event_witness :
    InI64 (exampleMatch.startTime + 5) ∧
    ∃ s', scorePhase scoringEnv 1700000100 exampleMatch = some s' ∧
      s'.players = (scoringEnv.physicsStep exampleMatch.ball exampleMatch.players).2 ∧
      ((s'.players.p0.score ≠ exampleMatch.players.p0.score ∨
          s'.players.p1.score ≠ exampleMatch.players.p1.score) →
        s'.startTime = exampleMatch.startTime + 5 ∧ s'.transitionTime = 1700000100 ∧
        ∀ (next : Server) (now' : Int) (clock : Nat → Int) (out : Server × List Packet),
          next.startTime = s'.startTime → next.clients.length = 2 →
          now' - next.startTime ≤ 300 → tick scoringEnv now' clock next = some out →
          ∀ p ∈ out.2, p.countdown = max 0 (300 - now' + exampleMatch.startTime + 5)) ∧
      ((s'.players.p0.score = exampleMatch.players.p0.score ∧
          s'.players.p1.score = exampleMatch.players.p1.score) →
        s'.startTime = exampleMatch.startTime ∧
        s'.transitionTime = exampleMatch.transitionTime) ∧
      (∀ (clock : Nat → Int) (s0 : Server) (out : Server × List Packet),
        tick scoringEnv 1700000100 clock s0 = some out →
        ∃ s3, scorePhase scoringEnv 1700000100 s3 = some out.1) :=
  ⟨by decide, C9_score_event scoringEnv 1700000100 exampleMatch (by decide)⟩

/-- C10 as stated fails: a running match with scores (3, 1) loses a session in a tick at
1700000100, runs a tick with one session, admits a new client, and after the first tick
with two sessions again, at 1700000102 (the original round would still be running), the
scores are (0, 0). -/
theorem C10_counterexample :
    exampleMatch.clients.length = 2 ∧ (1700000100 : Int) - exampleMatch.startTime ≤ 300 ∧
    scoresOf exampleMatch = (3, 1) ∧
    (run exampleEnv [.tick 1700000100 (fun _ => 10000000000)] exampleMatch).map
        (fun s => (s.clients.length, scoresOf s)) = some (1, (3, 1)) ∧
    (run exampleEnv (.tick 1700000100 (fun _ => 10000000000) :: churnIdle) exampleMatch).map
        (fun s => (s.clients.length, scoresOf s)) = some (2, (3, 1)) ∧
    (1700000102 : Int) - exampleMatch.startTime ≤ 300 ∧
    (run exampleEnv
        (.tick 1700000100 (fun _ => 10000000000) :: churnIdle
          ++ [.tick 1700000102 (fun _ => 10700000000)]) exampleMatch).map
        (fun s => (s.clients.length, scoresOf s)) = some (2, (0, 0)) := by
  decide

/-- C10, amended: from a running match with two sessions, after a tick that leaves fewer
than two sessions, any sequence of datagram handlings and ticks that contains a tick,
whose ticks all start with fewer than two sessions and that ends with two sessions, the
physics step changing no score: the scores are still those of the start and `startTime`
is 0 when the first tick with two sessions begins; after that tick both scores are 0 if
`now' > 300` (the round reset fires on `now' - 0 > 300`), and they are still those of
the start only if `now' ≤ 300`. -/
theorem C10_scores_after_churn (env : Env)
    (hphys : ∀ ball players, (env.physicsStep ball players).2.p0.score = players.p0.score ∧
      (env.physicsStep ball players).2.p1.score = players.p1.score)
    (s0 s1 s2 s3 : Server) (now1 now' : Int) (clock1 clock' : Nat → Int)
    (packets1 packets' : List Packet) (events : List Event)
    (h0 : s0.clients.length = 2) (hrunning : now1 - s0.startTime ≤ 300)
    (hevict : tick env now1 clock1 s0 = some (s1, packets1)) (_hevicted : s1.clients.length < 2)
    (hrun : run env events s1 = some s2) (hidle : idleTicks env events s1 = true)
    (hsome : events.any isTick = true) (h2 : s2.clients.length = 2)
    (_horiginal : now' - s0.startTime ≤ 300)
    (htick : tick env now' clock' s2 = some (s3, packets')) :
    scoresOf s2 = scoresOf s0 ∧ s2.startTime = 0 ∧
    (now' > 300 → scoresOf s3 = (0, 0)) ∧
    (now' ≤ 300 → scoresOf s3 = scoresOf s0) := by
  obtain ⟨t1, ht1, hsc1, -⟩ := tick_scores env hphys now1 clock1 s0 _ hevict
  have hkeep := (clockCheck_two env now1 s0 t1 h0 ht1).1 hrunning
  rw [hkeep] at hsc1
  obtain ⟨hsc2, hst2⟩ := idle_run env hphys events s1 s2 hrun hidle
  have hstart := hst2 (Or.inl hsome)
  have hscores : scoresOf s2 = scoresOf s0 := by rw [hsc2, hsc1]
  obtain ⟨t3, ht3, hsc3, -⟩ := tick_scores env hphys now' clock' s2 _ htick
  obtain ⟨hle, hgt⟩ := clockCheck_two env now' s2 t3 h2 ht3
  rw [hstart] at hle hgt
  refine ⟨hscores, hstart, ?_, ?_⟩
  · intro h
    obtain ⟨ha, hb, -⟩ := hgt (by omega)
    rw [hsc3]; unfold scoresOf; rw [ha, hb]
  · intro h
    have hsame := hle (by omega)
    rw [hsc3, hsame, hscores]

/-- C10 (amended) on the churn example. -/
theorem C10_scores_after_churn_witness :
    (∀ ball players, (exampleEnv.physicsStep ball players).2.p0.score = players.p0.score ∧
      (exampleEnv.physicsStep ball players).2.p1.score = players.p1.score) ∧
    exampleMatch.clients.length = 2 ∧ (1700000100 : Int) - exampleMatch.startTime ≤ 300 ∧
    tick exampleEnv 1700000100 (fun _ => 10000000000) exampleMatch
      = some (churnEviction.1, churnEviction.2) ∧
    churnEviction.1.clients.length < 2 ∧
    run exampleEnv churnIdle churnEviction.1 = some churnRejoined ∧
    idleTicks exampleEnv churnIdle churnEviction.1 = true ∧
    churnIdle.any isTick = true ∧ churnRejoined.clients.length = 2 ∧
    (1700000102 : Int) - exampleMatch.startTime ≤ 300 ∧
    tick exampleEnv 1700000102 (fun _ => 10700000000) churnRejoined
      = some (churnFinal.1, churnFinal.2) ∧
    (scoresOf churnRejoined = scoresOf exampleMatch ∧ churnRejoined.startTime = 0 ∧
      ((1700000102 : Int) > 300 → scoresOf churnFinal.1 = (0, 0)) ∧
      ((1700000102 : Int) ≤ 300 → scoresOf churnFinal.1 = scoresOf exampleMatch)) :=
  ⟨fun _ _ => ⟨rfl, rfl⟩, by decide, by decide, by decide, by decide, by decide, by decide,
    by decide, by decide, by decide, by decide,
    C10_scores_after_churn exampleEnv (fun _ _ => ⟨rfl, rfl⟩) exampleMatch churnEviction.1
      churnRejoined churnFinal.1 1700000100 1700000102 (fun _ => 10000000000)
      (fun _ => 10700000000) churnEviction.2 churnFinal.2 churnIdle
      (by decide) (by decide) (by decide) (by decide) (by decide) (by decide) (by decide)
      (by decide) (by decide) (by decide)⟩

/-- C11 as stated fails: two ticks with a single session at times 100 and 200 broadcast
the countdowns 200 and 100; the countdown of the second is not that of the first. -/
theorem C11_counterexample :
    idleServer.clients.length < 2 ∧
    (tick exampleEnv 100 (fun _ => 1000000000) idleServer).map
        (fun out => (out.1.clients.length, out.2.map (fun p => p.countdown)))
      = some (1, [200]) ∧
    (100 : Int) ≤ 200 ∧
    ((tick exampleEnv 100 (fun _ => 1000000000) idleServer).bind
        (fun out => tick exampleEnv 200 (fun _ => 2000000000) out.1)).map
        (fun out => out.2.map (fun p => p.countdown))
      = some [100] := by
  decide

/-- C11, amended: in every tick that starts with fewer than two sessions, `startTime` is
0 when the broadcast is built and every countdown broadcast is `max 0 (300 - now)`; for
two such ticks at times `now1 ≤ now2` the countdown of the second is at most that of the
first, and when `300 ≤ now1` both are 0, so equal. -/
theorem C11_idle_clock (env : Env) (now1 now2 : Int) (clock1 clock2 : Nat → Int)
    (s1 s2 : Server) (out1 out2 : Server × List Packet)
    (hidle1 : s1.clients.length < 2) (hidle2 : s2.clients.length < 2)
    (hle : now1 ≤ now2)
    (h1 : tick env now1 clock1 s1 = some out1) (h2 : tick env now2 clock2 s2 = some out2) :
    (∃ (s3 : Server) (records : List Record),
      broadcast now1 s3 records = some out1.2 ∧ s3.startTime = 0) ∧
    (∃ (s3 : Server) (records : List Record),
      broadcast now2 s3 records = some out2.2 ∧ s3.startTime = 0) ∧
    (∀ p ∈ out1.2, p.countdown = max 0 (300 - now1)) ∧
    (∀ p ∈ out2.2, p.countdown = max 0 (300 - now2)) ∧
    (∀ p1 ∈ out1.2, ∀ p2 ∈ out2.2, p2.countdown ≤ p1.countdown ∧
      (300 ≤ now1 → p2.countdown = p1.countdown ∧ p1.countdown = 0)) := by
  obtain ⟨hb1, hc1⟩ := tick_idle_countdown env now1 clock1 s1 out1 hidle1 h1
  obtain ⟨hb2, hc2⟩ := tick_idle_countdown env now2 clock2 s2 out2 hidle2 h2
  refine ⟨hb1, hb2, hc1, hc2, ?_⟩
  intro p1 hp1 p2 hp2
  rw [hc1 p1 hp1, hc2 p2 hp2]
  refine ⟨?_, ?_⟩
  · exact max_le_max (le_refl 0) (by omega)
  · intro h300
    rw [max_eq_left (by omega), max_eq_left (by omega)]
    exact ⟨rfl, rfl⟩

/-- C11 (amended) on two ticks of a single session at 1700000100 and 1700000101. -/
theorem C11_idle_clock_witness :
    idleServer.clients.length < 2 ∧ idleTick1.1.clients.length < 2 ∧
    (1700000100 : Int) ≤ 1700000101 ∧
    tick exampleEnv 1700000100 (fun _ => 1000000000) idleServer = some idleTick1 ∧
    tick exampleEnv 1700000101 (fun _ => 2000000000) idleTick1.1 = some idleTick2 ∧
    ((∃ (s3 : Server) (records : List Record),
      broadcast 1700000100 s3 records = some idleTick1.2 ∧ s3.startTime = 0) ∧
    (∃ (s3 : Server) (records : List Record),
      broadcast 1700000101 s3 records = some idleTick2.2 ∧ s3.startTime = 0) ∧
    (∀ p ∈ idleTick1.2, p.countdown = max 0 (300 - 1700000100)) ∧
    (∀ p ∈ idleTick2.2, p.countdown = max 0 (300 - 1700000101)) ∧
    (∀ p1 ∈ idleTick1.2, ∀ p2 ∈ idleTick2.2, p2.countdown ≤ p1.countdown ∧
      ((300 : Int) ≤ 1700000100 → p2.countdown = p1.countdown ∧ p1.countdown = 0))) :=
  ⟨by decide, by decide, by decide, by decide, by decide,
    C11_idle_clock exampleEnv 1700000100 1700000101 (fun _ => 1000000000)
      (fun _ => 2000000000) idleServer idleTick1.1 idleTick1 idleTick2
      (by decide) (by decide) (by decide) (by decide) (by decide)⟩

/-- C12: in a tick that returns, the entries collected for the broadcast are, in registry
order, exactly one per session (after the reap) that consumed input, with that session's
endpoint and player id and the id of the input at the front of its queue; and there is
exactly one packet per entry, in the same order: of 102 bytes, addressed to the entry's
endpoint, echoing its input id, with the car state and action of
`players[playerId XOR 1]` (never `players[playerId]`) as the regulator loop left the
players, and with the score of player 0 then of player 1 as its last two bytes. -/
theorem C12_broadcast_content (env : Env) (now : Int) (clock : Nat → Int) (s : Server)
    (out : Server × List Packet) (h : tick env now clock s = some out) :
    ∃ (s1 s3 : Server) (kept : List Client) (records : List Record),
      clockCheck env now s = some s1 ∧
      reap clock s1.clients = some kept ∧
      regulate s1.players kept = some (s3.clients, s3.players, records) ∧
      records = kept.filterMap
        (fun c =>
          if consumes (updateFlag c.regulateQueue c.queue.length) c.queue.length then
            c.queue.head?.map
              (fun input => { address := c.address, playerId := c.playerId,
                              inputId := input.id })
          else none) ∧
      List.Forall₂
        (fun r p =>
          p.dest = r.address ∧ p.inputId = r.inputId ∧
          (encodeState p).length = 102 ∧
          r.playerId ^^^ 1 ≠ r.playerId ∧
          (∃ other, getPlayer s3.players (r.playerId ^^^ 1) = some other ∧
            p.opponentCarState = other.carState ∧ p.opponentAction = other.action) ∧
          p.score0 = s3.players.p0.score ∧ p.score1 = s3.players.p1.score ∧
          (encodeState p).drop 100 = [s3.players.p0.score % 256, s3.players.p1.score % 256])
        records out.2 := by
  obtain ⟨s1, kept, s3, records, h1, hk, h2, h3, -⟩ := tick_eq_some env now clock s out h
  obtain ⟨hreg, -⟩ := regulatePhase_eq_some _ s3 records h2
  simp only at hreg
  refine ⟨s1, s3, kept, records, h1, hk, hreg, ?_, ?_⟩
  · exact regulate_records _ _ _ hreg
  · refine List.Forall₂.imp ?_ (broadcast_forall₂ now s3 records out.2 h3)
    intro r p hp
    obtain ⟨hd, hi, ho, -, h0, h1'⟩ := statePacket_fields now s3 r p hp
    refine ⟨hd, hi, encodeState_length p, xor_one_ne r.playerId, ho, h0, h1', ?_⟩
    rw [← h0, ← h1']
    exact encodeState_scores p

/-- C12 on a tick in which both sessions consume: two packets, one per session. -/
theorem C12_broadcast_content_witness :
    tick exampleEnv 1700000100 (fun _ => 10000000000) steadyMatch = some steadyTick ∧
    steadyTick.2.map (fun p => (p.dest.sin_port, p.inputId)) = [(7000, 0), (7001, 0)] ∧
    ∃ (s1 s3 : Server) (kept : List Client) (records : List Record),
      clockCheck exampleEnv 1700000100 steadyMatch = some s1 ∧
      reap (fun _ => 10000000000) s1.clients = some kept ∧
      regulate s1.players kept = some (s3.clients, s3.players, records) ∧
      records = kept.filterMap
        (fun c =>
          if consumes (updateFlag c.regulateQueue c.queue.length) c.queue.length then
            c.queue.head?.map
              (fun input => { address := c.address, playerId := c.playerId,
                              inputId := input.id })
          else none) ∧
      List.Forall₂
        (fun r p =>
          p.dest = r.address ∧ p.inputId = r.inputId ∧
          (encodeState p).length = 102 ∧
          r.playerId ^^^ 1 ≠ r.playerId ∧
          (∃ other, getPlayer s3.players (r.playerId ^^^ 1) = some other ∧
            p.opponentCarState = other.carState ∧ p.opponentAction = other.action) ∧
          p.score0 = s3.players.p0.score ∧ p.score1 = s3.players.p1.score ∧
          (encodeState p).drop 100 = [s3.players.p0.score % 256, s3.players.p1.score % 256])
        records steadyTick.2 :=
  ⟨by decide, by decide,
    C12_broadcast_content exampleEnv 1700000100 (fun _ => 10000000000) steadyMatch steadyTick
      (by decide)⟩

/-- C13: for all `now`, `startTime` and `transitionTime` for which the four `int64_t`
operations do not overflow (and a player id 0 or 1), the packet is built with
`countdown = max 0 (300 - now + startTime)` and
`transitionCountdown = max 0 (5 - now + transitionTime)`, both at least 0; and every packet
of a tick that returns has these values, for the timers left by the clock check. -/
theorem C13_countdown_clamping (now : Int) (s : Server) (r : Record)
    (h1 : InI64 (300 - now)) (h2 : InI64 (300 - now + s.startTime))
    (h3 : InI64 (5 - now)) (h4 : InI64 (5 - now + s.transitionTime))
    (hid : r.playerId ≤ 1) :
    (∃ p, statePacket now s r = some p ∧
      p.countdown = max 0 (300 - now + s.startTime) ∧
      p.transitionCountdown = max 0 (5 - now + s.transitionTime) ∧
      0 ≤ p.countdown ∧ 0 ≤ p.transitionCountdown) ∧
    (∀ (env : Env) (clock : Nat → Int) (s0 : Server) (out : Server × List Packet),
      tick env now clock s0 = some out →
      ∃ s1, clockCheck env now s0 = some s1 ∧
        ∀ p ∈ out.2, p.countdown = max 0 (300 - now + s1.startTime) ∧
          p.transitionCountdown = max 0 (5 - now + s1.transitionTime) ∧
          0 ≤ p.countdown ∧ 0 ≤ p.transitionCountdown) := by
  constructor
  · obtain ⟨p, hp⟩ := statePacket_isSome now s r h1 h2 h3 h4 hid
    obtain ⟨hc, ht⟩ := statePacket_countdown now s r p hp
    exact ⟨p, hp, hc, ht, by rw [hc]; exact le_max_left _ _, by rw [ht]; exact le_max_left _ _⟩
  · intro env clock s0 out htick
    obtain ⟨s1, h1', hall⟩ := tick_countdown env now clock s0 out htick
    refine ⟨s1, h1', ?_⟩
    intro p hp
    obtain ⟨hc, ht⟩ := hall p hp
    exact ⟨hc, ht, by rw [hc]; exact le_max_left _ _, by rw [ht]; exact le_max_left _ _⟩

/-- C13 on the running match at 1700000100. -/
theorem C13_countdown_clamping_witness :
    InI64 (300 - 1700000100) ∧ InI64 (300 - 1700000100 + exampleMatch.startTime) ∧
    InI64 (5 - 1700000100) ∧ InI64 (5 - 1700000100 + exampleMatch.transitionTime) ∧
    ({ address := { s_addr := 2130706433, sin_port := 7000 }, playerId := 0,
       inputId := 7 } : Record).playerId ≤ 1 ∧
    ((∃ p, statePacket 1700000100 exampleMatch
          { address := { s_addr := 2130706433, sin_port := 7000 }, playerId := 0,
            inputId := 7 } = some p ∧
      p.countdown = max 0 (300 - 1700000100 + exampleMatch.startTime) ∧
      p.transitionCountdown = max 0 (5 - 1700000100 + exampleMatch.transitionTime) ∧
      0 ≤ p.countdown ∧ 0 ≤ p.transitionCountdown) ∧
    (∀ (env : Env) (clock : Nat → Int) (s0 : Server) (out : Server × List Packet),
      tick env 1700000100 clock s0 = some out →
      ∃ s1, clockCheck env 1700000100 s0 = some s1 ∧
        ∀ p ∈ out.2, p.countdown = max 0 (300 - 1700000100 + s1.startTime) ∧
          p.transitionCountdown = max 0 (5 - 1700000100 + s1.transitionTime) ∧
          0 ≤ p.countdown ∧ 0 ≤ p.transitionCountdown)) :=
  ⟨by decide, by decide, by decide, by decide, by decide,
    C13_countdown_clamping 1700000100 exampleMatch
      { address := { s_addr := 2130706433, sin_port := 7000 }, playerId := 0, inputId := 7 }
      (by decide) (by decide) (by decide) (by decide) (by decide)⟩

/-- C14: with two sessions registered and a datagram whose endpoint (address and port)
matches none of them, the handling returns the registry unchanged (no session added, no
queue appended, no `lastUpdate` refreshed) and no reply; it leaves the whole server state
unchanged; for `recvLength = 0` it throws instead, also without a change or a reply. -/
theorem C14_full_registry_drop (fresh : Input) (recvLength : Int) (buffer : Nat → Nat)
    (clientAddress : SockAddr) (now : Int) (clients : List Client)
    (hfull : clients.length = 2)
    (hnomatch : ∀ c ∈ clients, ¬ (c.address.s_addr = clientAddress.s_addr ∧
      c.address.sin_port = clientAddress.sin_port)) :
    (recvLength ≠ 0 →
      receiveOne fresh recvLength buffer clientAddress now clients = some (clients, none)) ∧
    (recvLength = 0 →
      receiveOne fresh recvLength buffer clientAddress now clients = none) ∧
    (∀ out, receiveOne fresh recvLength buffer clientAddress now clients = some out →
      out.1 = clients ∧ out.2 = none) ∧
    (∀ (env : Env) (s s' : Server), s.clients = clients →
      step env (.datagram fresh recvLength buffer clientAddress now) s = some s' → s' = s) := by
  have hf := findClient_eq_none clientAddress clients hnomatch
  have hsome : recvLength ≠ 0 →
      receiveOne fresh recvLength buffer clientAddress now clients = some (clients, none) := by
    intro h0
    unfold receiveOne
    rw [if_neg h0, hf]
    simp only
    rw [if_neg (by omega)]
  have hall : ∀ out, receiveOne fresh recvLength buffer clientAddress now clients = some out →
      out.1 = clients ∧ out.2 = none := by
    intro out hout
    by_cases h0 : recvLength = 0
    · unfold receiveOne at hout
      rw [if_pos h0] at hout
      exact absurd hout (by simp)
    · rw [hsome h0] at hout
      have := Option.some.inj hout
      rw [← this]
      exact ⟨rfl, rfl⟩
  refine ⟨hsome, ?_, hall, ?_⟩
  · intro h0
    unfold receiveOne
    rw [if_pos h0]
  · intro env s s' hs hstep
    simp only [step, Option.map_eq_some'] at hstep
    obtain ⟨out, hout, rfl⟩ := hstep
    rw [hs] at hout
    rw [(hall out hout).1, ← hs]

/-- C14 on the two sessions of the running match and a datagram from port 7002. -/
theorem C14_full_registry_drop_witness :
    exampleMatch.clients.length = 2 ∧
    (∀ c ∈ exampleMatch.clients, ¬ (c.address.s_addr = 2130706433 ∧
      c.address.sin_port = 7002)) ∧
    (((48 : Int) ≠ 0 →
      receiveOne (exampleInput 0) 48 (fun _ => 0) { s_addr := 2130706433, sin_port := 7002 }
        10000000000 exampleMatch.clients = some (exampleMatch.clients, none)) ∧
    ((48 : Int) = 0 →
      receiveOne (exampleInput 0) 48 (fun _ => 0) { s_addr := 2130706433, sin_port := 7002 }
        10000000000 exampleMatch.clients = none) ∧
    (∀ out, receiveOne (exampleInput 0) 48 (fun _ => 0)
        { s_addr := 2130706433, sin_port := 7002 } 10000000000 exampleMatch.clients
          = some out →
      out.1 = exampleMatch.clients ∧ out.2 = none) ∧
    (∀ (env : Env) (s s' : Server), s.clients = exampleMatch.clients →
      step env (.datagram (exampleInput 0) 48 (fun _ => 0)
        { s_addr := 2130706433, sin_port := 7002 } 10000000000) s = some s' → s' = s)) :=
  ⟨by decide, by decide,
    C14_full_registry_drop (exampleInput 0) 48 (fun _ => 0)
      { s_addr := 2130706433, sin_port := 7002 } 10000000000 exampleMatch.clients
      (by decide) (by decide)⟩

/-- C15: in the regulator loop over sessions with pairwise different player ids (as the
registry invariant gives), a session that is not consumed (queue empty, or updated flag
true with depth at most 10) keeps its queue (only its flag is updated), and
`players[playerId]` of that session is the same after the loop, with its action and car
state, whatever the other sessions consume. -/
theorem C15_no_input_no_change (players players' : Players) (clients clients' : List Client)
    (records : List Record) (i : Nat) (c : Client)
    (hids : (clients.map (fun c => c.playerId)).Nodup)
    (h : regulate players clients = some (clients', players', records))
    (hc : clients[i]? = some c)
    (hidle : c.queue = [] ∨
      (updateFlag c.regulateQueue c.queue.length = true ∧ c.queue.length ≤ 10)) :
    consumes (updateFlag c.regulateQueue c.queue.length) c.queue.length = false ∧
    clients'[i]? = some { c with regulateQueue := updateFlag c.regulateQueue c.queue.length } ∧
    (∃ c', clients'[i]? = some c' ∧ c'.queue = c.queue) ∧
    getPlayer players' c.playerId = getPlayer players c.playerId ∧
    (∀ p, getPlayer players c.playerId = some p →
      ∃ p', getPlayer players' c.playerId = some p' ∧
        p'.action = p.action ∧ p'.carState = p.carState) := by
  have hnc := (consumes_false_iff c.regulateQueue c.queue).2 hidle
  obtain ⟨hq, hg⟩ := regulate_idle clients players _ i c hids h hc hnc
  simp only at hq hg
  refine ⟨hnc, hq, ⟨_, hq, rfl⟩, hg, ?_⟩
  intro p hp
  exact ⟨p, by rw [hg, hp], rfl, rfl⟩

/-- C15 on a session that is not consumed, next to one that is. -/
theorem C15_no_input_no_change_witness :
    (mixedSessions.map (fun c => c.playerId)).Nodup ∧
    regulate examplePlayers mixedSessions
      = some (mixedRegulated.1, mixedRegulated.2.1, mixedRegulated.2.2) ∧
    mixedRegulated.2.2.length = 1 ∧
    mixedSessions[0]? = some (exampleSession 7000 0 true 3 0) ∧
    ((exampleSession 7000 0 true 3 0).queue = [] ∨
      (updateFlag (exampleSession 7000 0 true 3 0).regulateQueue
          (exampleSession 7000 0 true 3 0).queue.length = true ∧
        (exampleSession 7000 0 true 3 0).queue.length ≤ 10)) ∧
    (consumes (updateFlag (exampleSession 7000 0 true 3 0).regulateQueue
        (exampleSession 7000 0 true 3 0).queue.length)
        (exampleSession 7000 0 true 3 0).queue.length = false ∧
    mixedRegulated.1[0]?
      = some { exampleSession 7000 0 true 3 0 with
                 regulateQueue := updateFlag (exampleSession 7000 0 true 3 0).regulateQueue
                   (exampleSession 7000 0 true 3 0).queue.length } ∧
    (∃ c', mixedRegulated.1[0]? = some c' ∧
      c'.queue = (exampleSession 7000 0 true 3 0).queue) ∧
    getPlayer mixedRegulated.2.1 (exampleSession 7000 0 true 3 0).playerId
      = getPlayer examplePlayers (exampleSession 7000 0 true 3 0).playerId ∧
    (∀ p, getPlayer examplePlayers (exampleSession 7000 0 true 3 0).playerId = some p →
      ∃ p', getPlayer mixedRegulated.2.1 (exampleSession 7000 0 true 3 0).playerId = some p' ∧
        p'.action = p.action ∧ p'.carState = p.carState)) :=
  ⟨by decide, by decide, by decide, by decide, by decide,
    C15_no_input_no_change examplePlayers mixedRegulated.2.1 mixedSessions mixedRegulated.1
      mixedRegulated.2.2 0 (exampleSession 7000 0 true 3 0)
      (by decide) (by decide) (by decide) (by decide)⟩

/-- C16 as stated fails: for a datagram of length 0 from an endpoint that matches no
session, with one session registered, `receive` throws (lines 37-42): there is no
resulting registry, so no session is appended, and no reply. -/
theorem C16_counterexample :
    idleServer.clients.length < 2 ∧
    (∀ c ∈ idleServer.clients, ¬ (c.address.s_addr = 2130706433 ∧
      c.address.sin_port = 7002)) ∧
    receiveOne (exampleInput 0) 0 (fun _ => 0) { s_addr := 2130706433, sin_port := 7002 }
      10000000000 idleServer.clients = none ∧
    (step exampleEnv
      (.datagram (exampleInput 0) 0 (fun _ => 0) { s_addr := 2130706433, sin_port := 7002 }
        10000000000) idleServer).isSome = false := by
  decide

/-- C16, amended: for a datagram whose receive length is not 0 (ids of the registered
sessions 0 or 1): from an endpoint that matches no session, with fewer than two sessions
registered, the handling appends exactly one session with that endpoint,
`regulateQueue = true`, an empty queue, and `playerId` 0 for an empty registry, else the
first session's id XOR 1, replies with that one byte, and leaves the existing sessions
unchanged; from an endpoint that matches, it appends the decoded input to the back of the
queue of the first matching session (and refreshes its `lastUpdate`), creates no session
and sends no reply. -/
theorem C16_admission_postcondition (fresh : Input) (recvLength : Int) (buffer : Nat → Nat)
    (clientAddress : SockAddr) (now : Int) (clients : List Client)
    (hlen : recvLength ≠ 0) (hids : ∀ c ∈ clients, c.playerId ≤ 1) :
    ((∀ c ∈ clients, ¬ (c.address.s_addr = clientAddress.s_addr ∧
        c.address.sin_port = clientAddress.sin_port)) →
      (clients = [] →
        receiveOne fresh recvLength buffer clientAddress now clients
          = some ([{ address := clientAddress, queue := [], regulateQueue := true,
                     playerId := 0, lastUpdate := now }],
                  some { dest := clientAddress, playerId := 0 }) ∧
        encodeReply { dest := clientAddress, playerId := 0 } = [0]) ∧
      (∀ first, clients = [first] →
        receiveOne fresh recvLength buffer clientAddress now clients
          = some ([first, { address := clientAddress, queue := [], regulateQueue := true,
                            playerId := first.playerId ^^^ 1, lastUpdate := now }],
                  some { dest := clientAddress, playerId := first.playerId ^^^ 1 }) ∧
        encodeReply { dest := clientAddress, playerId := first.playerId ^^^ 1 }
          = [first.playerId ^^^ 1]) ∧
      (clients.length < 2 →
        ∃ playerId, receiveOne fresh recvLength buffer clientAddress now clients
          = some (clients ++ [{ address := clientAddress, queue := [], regulateQueue := true,
                                playerId := playerId, lastUpdate := now }],
                  some { dest := clientAddress, playerId := playerId }))) ∧
    (∀ pre c post, clients = pre ++ c :: post →
      (∀ x ∈ pre, ¬ (x.address.s_addr = clientAddress.s_addr ∧
        x.address.sin_port = clientAddress.sin_port)) →
      (c.address.s_addr = clientAddress.s_addr ∧ c.address.sin_port = clientAddress.sin_port) →
      receiveOne fresh recvLength buffer clientAddress now clients
        = some (pre ++ { c with queue := c.queue ++ [decodeInput fresh buffer],
                                lastUpdate := now } :: post,
                none)) := by
  constructor
  · intro hnomatch
    have hf := findClient_eq_none clientAddress clients hnomatch
    refine ⟨?_, ?_, ?_⟩
    · intro hnil
      subst hnil
      refine ⟨?_, rfl⟩
      unfold receiveOne
      rw [if_neg hlen, hf]
      rfl
    · intro first hone
      subst hone
      obtain ⟨-, -, hmod⟩ := xor_one_of_le_one first.playerId (hids first (List.mem_cons_self _ _))
      refine ⟨?_, ?_⟩
      · unfold receiveOne
        rw [if_neg hlen, hf]
        simp only [List.length_singleton, Nat.one_lt_ofNat, if_true, newPlayerId, hmod]
        rfl
      · unfold encodeReply
        simp only [hmod]
    · intro h2
      unfold receiveOne
      rw [if_neg hlen, hf]
      simp only [h2, if_true]
      exact ⟨_, rfl⟩
  · intro pre c post hcl hpre hc
    subst hcl
    unfold receiveOne
    rw [if_neg hlen, findClient_first clientAddress pre c post hpre hc]
    simp only
    rw [updateClient_at]

/-- C16 (amended) on a registry with one session of player 1 and a datagram of 48 bytes
from a new endpoint:
the newcomer is player 0. -/
theorem C16_admission_postcondition_witness :
    (48 : Int) ≠ 0 ∧ (∀ c ∈ idleServer.clients, c.playerId ≤ 1) ∧
    (((∀ c ∈ idleServer.clients, ¬ (c.address.s_addr = 2130706433 ∧
        c.address.sin_port = 7002)) →
      (idleServer.clients = [] →
        receiveOne (exampleInput 0) 48 (fun _ => 0)
            { s_addr := 2130706433, sin_port := 7002 } 10000000000 idleServer.clients
          = some ([{ address := { s_addr := 2130706433, sin_port := 7002 }, queue := [],
                     regulateQueue := true, playerId := 0, lastUpdate := 10000000000 }],
                  some { dest := { s_addr := 2130706433, sin_port := 7002 },
                         playerId := 0 }) ∧
        encodeReply { dest := { s_addr := 2130706433, sin_port := 7002 }, playerId := 0 }
          = [0]) ∧
      (∀ first, idleServer.clients = [first] →
        receiveOne (exampleInput 0) 48 (fun _ => 0)
            { s_addr := 2130706433, sin_port := 7002 } 10000000000 idleServer.clients
          = some ([first, { address := { s_addr := 2130706433, sin_port := 7002 },
                            queue := [], regulateQueue := true,
                            playerId := first.playerId ^^^ 1, lastUpdate := 10000000000 }],
                  some { dest := { s_addr := 2130706433, sin_port := 7002 },
                         playerId := first.playerId ^^^ 1 }) ∧
        encodeReply { dest := { s_addr := 2130706433, sin_port := 7002 },
                      playerId := first.playerId ^^^ 1 }
          = [first.playerId ^^^ 1]) ∧
      (idleServer.clients.length < 2 →
        ∃ playerId, receiveOne (exampleInput 0) 48 (fun _ => 0)
            { s_addr := 2130706433, sin_port := 7002 } 10000000000 idleServer.clients
          = some (idleServer.clients ++
                    [{ address := { s_addr := 2130706433, sin_port := 7002 }, queue := [],
                       regulateQueue := true, playerId := playerId,
                       lastUpdate := 10000000000 }],
                  some { dest := { s_addr := 2130706433, sin_port := 7002 },
                         playerId := playerId }))) ∧
    (∀ pre c post, idleServer.clients = pre ++ c :: post →
      (∀ x ∈ pre, ¬ (x.address.s_addr = 2130706433 ∧ x.address.sin_port = 7002)) →
      (c.address.s_addr = 2130706433 ∧ c.address.sin_port = 7002) →
      receiveOne (exampleInput 0) 48 (fun _ => 0)
          { s_addr := 2130706433, sin_port := 7002 } 10000000000 idleServer.clients
        = some (pre ++ { c with queue := c.queue ++ [decodeInput (exampleInput 0) (fun _ => 0)],
                                lastUpdate := 10000000000 } :: post,
                none))) :=
  ⟨by decide, by decide,
    C16_admission_postcondition (exampleInput 0) 48 (fun _ => 0)
      { s_addr := 2130706433, sin_port := 7002 } 10000000000 idleServer.clients
      (by decide) (by decide)⟩

/-- C17: a session with an empty queue gets the flag true and is not consumed; whenever
the regulator consumes, the queue read by `front` is non-empty and the drain loop never
executes a `pop` on an empty queue: in steady state it pops the front only, in a force
drain (queue length below 2^32, so that the counter `int i` does not overflow) it stops
with the inputs beyond the popped ones left; `drain` has a result exactly when the loop
ends that way; and for a player id 0 or 1 and such a length the regulator returns. -/
theorem C17_queue_access_safe (players : Players) (c : Client) :
    (c.queue = [] →
      updateFlag c.regulateQueue c.queue.length = true ∧
      consumes (updateFlag c.regulateQueue c.queue.length) c.queue.length = false ∧
      regulateClient players c = some ({ c with regulateQueue := true }, players, none)) ∧
    (consumes (updateFlag c.regulateQueue c.queue.length) c.queue.length = true →
      c.queue ≠ [] ∧
      drainChecked (updateFlag c.regulateQueue c.queue.length) 0 c.queue ≠ .popEmpty ∧
      (updateFlag c.regulateQueue c.queue.length = false →
        drainChecked false 0 c.queue = .done c.queue.tail) ∧
      (updateFlag c.regulateQueue c.queue.length = true →
        c.queue.length < 4294967296 →
        drainChecked true 0 c.queue = .done (c.queue.drop ((c.queue.length - 5 + 1) / 2)))) ∧
    (∀ (flag : Bool) (i : Nat),
      drain flag i c.queue = (drainChecked flag i c.queue).toOption) ∧
    (c.playerId ≤ 1 → c.queue.length < 4294967296 →
      ∃ out, regulateClient players c = some out) := by
  refine ⟨?_, ?_, fun flag i => drain_eq_drainChecked flag c.queue i, ?_⟩
  · intro hq
    have hu : updateFlag c.regulateQueue c.queue.length = true := by
      rw [hq]; cases c.regulateQueue <;> decide
    have hc : consumes (updateFlag c.regulateQueue c.queue.length) c.queue.length = false := by
      rw [hu, hq]; decide
    refine ⟨hu, hc, ?_⟩
    rw [regulateClient_skip players c hc, hu]
  · intro hc
    have hpos := consumes_pos _ _ hc
    obtain ⟨x, rest, hq⟩ : ∃ x rest, c.queue = x :: rest := by
      cases hq : c.queue with
      | nil => rw [hq] at hpos; simp at hpos
      | cons x q => exact ⟨x, q, rfl⟩
    refine ⟨by rw [hq]; simp, ?_, ?_, ?_⟩
    · cases hu : updateFlag c.regulateQueue c.queue.length with
      | false => rw [hq, drainChecked_false_zero]; simp
      | true =>
        have hgt : c.queue.length > 10 := by
          rw [hu] at hc
          unfold consumes QUEUE_MAX at hc
          simpa using hc
        exact drainChecked_true_ne_popEmpty c.queue 0 (by omega) (by omega)
    · intro _
      rw [hq, drainChecked_false_zero]; rfl
    · intro hu hlen
      have hgt : c.queue.length > 10 := by
        rw [hu] at hc
        unfold consumes QUEUE_MAX at hc
        simpa using hc
      have hk : (c.queue.length - 4 - 0) / 2 = (c.queue.length - 5 + 1) / 2 := by omega
      have hd := drain_true_from c.queue 0 (by omega) (by omega) (by omega)
        (by unfold INT_MAX; omega)
      rw [hk, drain_eq_drainChecked] at hd
      cases hdc : drainChecked true 0 c.queue with
      | done q' => rw [hdc] at hd; simpa [DrainOutcome.toOption] using hd
      | popEmpty => rw [hdc] at hd; simp [DrainOutcome.toOption] at hd
      | counterOverflow => rw [hdc] at hd; simp [DrainOutcome.toOption] at hd
  · intro hid hlen
    exact regulateClient_isSome players c hid hlen

/-- C18: for one session, along any sequence of ingest steps and regulator ticks that
starts with depth above 10, or with the flag true and depth above 5, that condition
holds after every step: an ingest adds one input and keeps it, a tick keeps it and
leaves the flag true; so at every later tick the updated flag is true and the session is
consumed, if at all, only by a force drain (depth above 10), never in steady state. -/
theorem C18_regulation_lock_in (events : List SessionEvent) (c c' : Client)
    (hlocked : c.queue.length > 10 ∨ (c.regulateQueue = true ∧ c.queue.length > 5))
    (hrun : sessionRun events c = some c') :
    (c'.queue.length > 10 ∨ (c'.regulateQueue = true ∧ c'.queue.length > 5)) ∧
    (∀ (input : Input) (now : Int) (c'' : Client),
      sessionStep (.ingest input now) c' = some c'' →
      c''.queue.length = c'.queue.length + 1 ∧
      (c''.queue.length > 10 ∨ (c''.regulateQueue = true ∧ c''.queue.length > 5))) ∧
    (∀ (players : Players) (c'' : Client),
      sessionStep (.regulatorTick players) c' = some c'' →
      (c''.queue.length > 10 ∨ (c''.regulateQueue = true ∧ c''.queue.length > 5)) ∧
      c''.regulateQueue = true) ∧
    (∀ (players : Players) (out : Client × Players × Option Record),
      regulateClient players c' = some out →
      updateFlag c'.regulateQueue c'.queue.length = true ∧
      (out.2.2.isSome = true → c'.queue.length > 10)) := by
  have hl : LockedIn c' := LockedIn_run events c c' hlocked hrun
  refine ⟨hl, ?_, ?_, ?_⟩
  · intro input now c'' h
    refine ⟨?_, LockedIn_step _ c' c'' hl h⟩
    simp only [sessionStep, Option.some.injEq] at h
    rw [← h]
    simp
  · intro players c'' h
    refine ⟨LockedIn_step _ c' c'' hl h, ?_⟩
    simp only [sessionStep, Option.map_eq_some'] at h
    obtain ⟨out, hout, rfl⟩ := h
    exact (LockedIn_tick players c' out hl hout).2.1
  · intro players out h
    obtain ⟨-, hf, hs⟩ := LockedIn_tick players c' out hl h
    exact ⟨(regulateClient_flag players c' out h) ▸ hf, hs⟩

/-- C18 on a session that starts with flag false and depth 11 and goes through four
ticks and four ingests. -/
theorem C18_regulation_lock_in_witness :
    ((exampleSession 7000 0 false 11 0).queue.length > 10 ∨
      ((exampleSession 7000 0 false 11 0).regulateQueue = true ∧
        (exampleSession 7000 0 false 11 0).queue.length > 5)) ∧
    sessionRun lockedRun (exampleSession 7000 0 false 11 0) = some lockedRunEnd ∧
    ((lockedRunEnd.queue.length > 10 ∨
        (lockedRunEnd.regulateQueue = true ∧ lockedRunEnd.queue.length > 5)) ∧
    (∀ (input : Input) (now : Int) (c'' : Client),
      sessionStep (.ingest input now) lockedRunEnd = some c'' →
      c''.queue.length = lockedRunEnd.queue.length + 1 ∧
      (c''.queue.length > 10 ∨ (c''.regulateQueue = true ∧ c''.queue.length > 5))) ∧
    (∀ (players : Players) (c'' : Client),
      sessionStep (.regulatorTick players) lockedRunEnd = some c'' →
      (c''.queue.length > 10 ∨ (c''.regulateQueue = true ∧ c''.queue.length > 5)) ∧
      c''.regulateQueue = true) ∧
    (∀ (players : Players) (out : Client × Players × Option Record),
      regulateClient players lockedRunEnd = some out →
      updateFlag lockedRunEnd.regulateQueue lockedRunEnd.queue.length = true ∧
      (out.2.2.isSome = true → lockedRunEnd.queue.length > 10))) :=
  ⟨by decide, by decide,
    C18_regulation_lock_in lockedRun (exampleSession 7000 0 false 11 0) lockedRunEnd
      (by decide) (by decide)⟩

/-- C19: when the depth `n` exceeds 10 (player id 0 or 1, `n` below 2^32) the regulator
consumes the front input with the flag true, and the drain loop ends after exactly
`(n - 5 + 1) / 2` pops, the ceiling of `(n - 5) / 2`, leaving `5 + (n - 5) / 2` inputs
(floor), at least 8: for `n = 11` it pops 3 and leaves 8, for `n = 12` it pops 4 and
leaves 8. -/
theorem C19_force_drain_count (players : Players) (c : Client)
    (hid : c.playerId ≤ 1) (hgt : c.queue.length > 10) (hlen : c.queue.length < 4294967296) :
    ∃ input rest players',
      c.queue = input :: rest ∧
      applyInput players c.playerId input = some players' ∧
      regulateClient players c
        = some ({ c with regulateQueue := true,
                         queue := c.queue.drop ((c.queue.length - 5 + 1) / 2) },
                players',
                some { address := c.address, playerId := c.playerId, inputId := input.id }) ∧
      drainChecked true 0 c.queue = .done (c.queue.drop ((c.queue.length - 5 + 1) / 2)) ∧
      c.queue.length - (c.queue.drop ((c.queue.length - 5 + 1) / 2)).length
        = (c.queue.length - 5 + 1) / 2 ∧
      2 * ((c.queue.length - 5 + 1) / 2) ≥ c.queue.length - 5 ∧
      2 * ((c.queue.length - 5 + 1) / 2) ≤ c.queue.length - 5 + 1 ∧
      (c.queue.drop ((c.queue.length - 5 + 1) / 2)).length = 5 + (c.queue.length - 5) / 2 ∧
      8 ≤ (c.queue.drop ((c.queue.length - 5 + 1) / 2)).length ∧
      (c.queue.length = 11 → (c.queue.length - 5 + 1) / 2 = 3 ∧
        (c.queue.drop ((c.queue.length - 5 + 1) / 2)).length = 8) ∧
      (c.queue.length = 12 → (c.queue.length - 5 + 1) / 2 = 4 ∧
        (c.queue.drop ((c.queue.length - 5 + 1) / 2)).length = 8) := by
  have hu := updateFlag_true_of_gt c.regulateQueue c.queue.length hgt
  have hk : (c.queue.length - 4 - 0) / 2 = (c.queue.length - 5 + 1) / 2 := by omega
  have hd := drain_true_from c.queue 0 (by omega) (by omega) (by omega)
    (by unfold INT_MAX; omega)
  rw [hk] at hd
  have hc : consumes (updateFlag c.regulateQueue c.queue.length) c.queue.length = true := by
    rw [hu]; unfold consumes QUEUE_MAX; simpa using hgt
  obtain ⟨input, rest, hq⟩ : ∃ input rest, c.queue = input :: rest := by
    cases hc : c.queue with
    | nil => rw [hc] at hgt; simp at hgt
    | cons x q => exact ⟨x, q, rfl⟩
  obtain ⟨players', hp⟩ := applyInput_isSome players c.playerId input hid
  have hreg := regulateClient_consume players players' c input rest _ hc hq hp (by rw [hu]; exact hd)
  rw [hu] at hreg
  have hdc : drainChecked true 0 c.queue
      = .done (c.queue.drop ((c.queue.length - 5 + 1) / 2)) := by
    rw [drain_eq_drainChecked] at hd
    cases hdc : drainChecked true 0 c.queue with
    | done q' => rw [hdc] at hd; simpa [DrainOutcome.toOption] using hd
    | popEmpty => rw [hdc] at hd; simp [DrainOutcome.toOption] at hd
    | counterOverflow => rw [hdc] at hd; simp [DrainOutcome.toOption] at hd
  refine ⟨input, rest, players', hq, hp, hreg, hdc, ?_, ?_, ?_, ?_, ?_, ?_, ?_⟩
  all_goals (try simp only [List.length_drop])
  all_goals omega

/-- C19 on a session of player 1 with 12 queued inputs. -/
theorem C19_force_drain_count_witness :
    (exampleSession 7001 1 true 12 0).playerId ≤ 1 ∧
    (exampleSession 7001 1 true 12 0).queue.length > 10 ∧
    (exampleSession 7001 1 true 12 0).queue.length < 4294967296 ∧
    ∃ input rest players',
      (exampleSession 7001 1 true 12 0).queue = input :: rest ∧
      applyInput examplePlayers (exampleSession 7001 1 true 12 0).playerId input
        = some players' ∧
      regulateClient examplePlayers (exampleSession 7001 1 true 12 0)
        = some ({ exampleSession 7001 1 true 12 0 with
                    regulateQueue := true,
                    queue := (exampleSession 7001 1 true 12 0).queue.drop
                      (((exampleSession 7001 1 true 12 0).queue.length - 5 + 1) / 2) },
                players',
                some { address := (exampleSession 7001 1 true 12 0).address,
                       playerId := (exampleSession 7001 1 true 12 0).playerId,
                       inputId := input.id }) ∧
      drainChecked true 0 (exampleSession 7001 1 true 12 0).queue
        = .done ((exampleSession 7001 1 true 12 0).queue.drop
            (((exampleSession 7001 1 true 12 0).queue.length - 5 + 1) / 2)) ∧
      (exampleSession 7001 1 true 12 0).queue.length
          - ((exampleSession 7001 1 true 12 0).queue.drop
              (((exampleSession 7001 1 true 12 0).queue.length - 5 + 1) / 2)).length
        = ((exampleSession 7001 1 true 12 0).queue.length - 5 + 1) / 2 ∧
      2 * (((exampleSession 7001 1 true 12 0).queue.length - 5 + 1) / 2)
        ≥ (exampleSession 7001 1 true 12 0).queue.length - 5 ∧
      2 * (((exampleSession 7001 1 true 12 0).queue.length - 5 + 1) / 2)
        ≤ (exampleSession 7001 1 true 12 0).queue.length - 5 + 1 ∧
      ((exampleSession 7001 1 true 12 0).queue.drop
          (((exampleSession 7001 1 true 12 0).queue.length - 5 + 1) / 2)).length
        = 5 + ((exampleSession 7001 1 true 12 0).queue.length - 5) / 2 ∧
      8 ≤ ((exampleSession 7001 1 true 12 0).queue.drop
          (((exampleSession 7001 1 true 12 0).queue.length - 5 + 1) / 2)).length ∧
      ((exampleSession 7001 1 true 12 0).queue.length = 11 →
        ((exampleSession 7001 1 true 12 0).queue.length - 5 + 1) / 2 = 3 ∧
        ((exampleSession 7001 1 true 12 0).queue.drop
          (((exampleSession 7001 1 true 12 0).queue.length - 5 + 1) / 2)).length = 8) ∧
      ((exampleSession 7001 1 true 12 0).queue.length = 12 →
        ((exampleSession 7001 1 true 12 0).queue.length - 5 + 1) / 2 = 4 ∧
        ((exampleSession 7001 1 true 12 0).queue.drop
          (((exampleSession 7001 1 true 12 0).queue.length - 5 + 1) / 2)).length = 8) :=
  ⟨by decide, by decide, by decide,
    C19_force_drain_count examplePlayers (exampleSession 7001 1 true 12 0)
      (by decide) (by decide) (by decide)⟩

end HackerLeague
